import Mathlib

/-!
Verification of the PBFT consensus round engine of `scripts/pbft-runner.js`.

The JavaScript engine is shallowly embedded as pure Lean functions:
* wall-clock time (`Date.now()` / `sleep`) becomes a logical clock field that
  `sleep` advances by the slept duration;
* the unseeded random source (`Math.random() < p` draws inside
  `exhibitsByzantineFailure`) becomes an explicit oracle `o : Nat → Bool`
  giving the outcome of each draw in order, indexed by a `tick` counter that
  only advances when the source actually calls `Math.random()` (i.e. only for
  Byzantine validators);
* the process-global `measurements` accumulator and the mutable
  `PBFTConsensus` instance are merged into one explicit state record that
  every operation threads;
* a JavaScript `throw` caught by `runConsensus` becomes an
  `Except String` result returned *alongside* the mutated state (mutations
  made before the throw persist, exactly as with the global state in JS).

Field-for-field the definitions follow the source; `lastActive` (a pure
wall-clock bookkeeping field never read by any logic) is the only validator
field not modelled.
-/

set_option linter.unusedVariables false

/-- Byzantine failure kinds, from `BYZANTINE_FAILURE_TYPES` in
`scripts/pbft-runner.js`: `'crash'`, `'malicious'`, `'delayed'`. -/
inductive BFault where
  | crash
  | malicious
  | delayed
deriving DecidableEq, Repr

/-- State of one validator, from `class PBFTValidator` (constructor at
pbft-runner.js:68-84).  `address` is the opaque account identity. -/
structure PBFTValidator where
  address : Nat
  index : Nat
  isByzantine : Bool
  byzantineType : Option BFault
  preparesSent : Nat
  preparesReceived : Nat
  commitsSent : Nat
  commitsReceived : Nat
  blocksProposed : Nat
  viewChangesSent : Nat
  viewChangesReceived : Nat
  failures : Nat
deriving DecidableEq, Repr

/-- `new PBFTValidator(account, index, isByzantine)`: all counters start at 0;
`byzantineType` is the randomly drawn kind when Byzantine, `null` otherwise
(the random draw is externalized as the `btype` argument). -/
def mkValidator (address index : Nat) (isByzantine : Bool) (btype : Option BFault) :
    PBFTValidator :=
  ⟨address, index, isByzantine, if isByzantine then btype else none,
   0, 0, 0, 0, 0, 0, 0, 0⟩

/-- `recordPrepare(false)` (pbft-runner.js:106-113): `preparesSent++`. -/
def recordPrepareSent (v : PBFTValidator) : PBFTValidator :=
  { v with preparesSent := v.preparesSent + 1 }

/-- `recordCommit(false)` (pbft-runner.js:118-125): `commitsSent++`. -/
def recordCommitSent (v : PBFTValidator) : PBFTValidator :=
  { v with commitsSent := v.commitsSent + 1 }

/-- `recordProposal()` (pbft-runner.js:130-133): `blocksProposed++`. -/
def recordProposal (v : PBFTValidator) : PBFTValidator :=
  { v with blocksProposed := v.blocksProposed + 1 }

/-- `recordViewChange(false)` (pbft-runner.js:138-145): `viewChangesSent++`. -/
def recordViewChangeSent (v : PBFTValidator) : PBFTValidator :=
  { v with viewChangesSent := v.viewChangesSent + 1 }

/-- `exhibitsByzantineFailure()` (pbft-runner.js:89-101).  A non-Byzantine
validator returns `false` without consuming a random draw.  A Byzantine one
draws `failsNow = Math.random() < BYZANTINE_FAILURE_PROBABILITY` — the draw's
outcome is `o tick` — and on `true` increments `failures` and returns its
`byzantineType`.  Returns (result, updated validator, next tick). -/
def exhibitsByzantineFailure (o : Nat → Bool) (v : PBFTValidator) (tick : Nat) :
    Option BFault × PBFTValidator × Nat :=
  if v.isByzantine = false then (none, v, tick)
  else if o tick then (v.byzantineType, { v with failures := v.failures + 1 }, tick + 1)
  else (none, v, tick + 1)

/-- Outcome of `Math.random() < p` for one draw `r ∈ [0,1)` against a failure
probability `p` — the arithmetic behind the oracle's booleans. -/
def failsNowOf (r p : ℚ) : Bool := decide (r < p)

/-- Entry of `measurements.byzantineEvents` (pbft-runner.js:509-519). -/
structure ByzantineEvent where
  timestamp : Nat
  validator : Nat
  validatorIndex : Nat
  blockHeight : Nat
  view : Nat
  phase : String
  failureType : BFault
deriving DecidableEq, Repr

/-- Entry of `measurements.viewChanges` (pbft-runner.js:487-495). -/
structure ViewChangeRecord where
  timestamp : Nat
  oldView : Nat
  newView : Nat
  reason : String
  duration : Nat
  messageCount : Nat
  newPrimary : Option Nat
deriving DecidableEq, Repr

/-- Entry of `measurements.consensusPhases` (pbft-runner.js:539-550). -/
structure PhaseRecord where
  timestamp : Nat
  blockHeight : Nat
  view : Nat
  phase : String
  duration : Nat
  messageCount : Nat
  participantCount : Option Nat
  byzantineCount : Nat
deriving DecidableEq, Repr

/-- Entry of `measurements.networkMessages` (pbft-runner.js:524-534). -/
structure NetworkMessageRecord where
  timestamp : Nat
  blockHeight : Nat
  view : Nat
  phase : String
  messageCount : Nat
  messageSize : Nat
  totalBytes : Nat
deriving DecidableEq, Repr

/-- Configured phase timings, from the module constants of pbft-runner.js
(`PRE_PREPARE_PHASE_TIME`, `PREPARE_PHASE_TIME`, `COMMIT_PHASE_TIME`,
`VIEW_CHANGE_TIMEOUT`). -/
structure Config where
  prePrepareTime : Nat
  prepareTime : Nat
  commitTime : Nat
  viewChangeTimeout : Nat
deriving DecidableEq, Repr

/-- The source's constant values: 200 / 300 / 300 / 2000 ms. -/
def defaultConfig : Config := ⟨200, 300, 300, 2000⟩

/-- Combined mutable state: the `PBFTConsensus` instance fields
(pbft-runner.js:152-159) together with the global `measurements` lists the
claims refer to, the logical clock and the random-draw cursor. -/
structure PBFTState where
  validators : List PBFTValidator
  currentView : Nat
  f : Nat
  blockHeight : Nat
  viewChangeInProgress : Bool
  clock : Nat
  tick : Nat
  byzantineEvents : List ByzantineEvent
  viewChanges : List ViewChangeRecord
  consensusPhases : List PhaseRecord
  networkMessages : List NetworkMessageRecord
deriving DecidableEq, Repr

/-- `new PBFTConsensus(validatorAccounts)` (pbft-runner.js:152-163):
`currentView = 0`, `f = ⌊(N−1)/3⌋`, `blockHeight = 0`, no view change in
progress; all measurement lists empty, clock and draw cursor at 0. -/
def initState (vs : List PBFTValidator) : PBFTState :=
  { validators := vs
    currentView := 0
    f := (vs.length - 1) / 3
    blockHeight := 0
    viewChangeInProgress := false
    clock := 0
    tick := 0
    byzantineEvents := []
    viewChanges := []
    consensusPhases := []
    networkMessages := [] }

/-- `getPrimary()` (pbft-runner.js:185-188): `validators[currentView % N]`
(`none` models the out-of-range `undefined`). -/
def getPrimary (s : PBFTState) : Option PBFTValidator :=
  s.validators[s.currentView % s.validators.length]?

/-- `recordByzantineEvent(validator, phase, failureType)`
(pbft-runner.js:509-519). -/
def mkByzEvent (clk : Nat) (v : PBFTValidator) (bh vw : Nat) (phase : String)
    (bf : BFault) : ByzantineEvent :=
  ⟨clk, v.address, v.index, bh, vw, phase, bf⟩

/-- Combined result of one validator loop: updated validators, next draw
cursor, participant count, Byzantine count, events recorded (in order). -/
structure LoopOut where
  vs : List PBFTValidator
  tick : Nat
  count : Nat
  byz : Nat
  events : List ByzantineEvent
deriving DecidableEq, Repr

/-- The prepare-phase loop over `this.validators` (pbft-runner.js:318-346).
The element at position `primaryIdx` is the object `===`-equal to
`getPrimary()` and is skipped.  Every other validator is consulted by the
fault model; a triggered fault records an event and counts as Byzantine;
`'crash'` skips the validator (`continue`), every other outcome falls through
to `recordPrepare(false)` and `prepareCount++`. -/
def prepLoop (o : Nat → Bool) (primaryIdx bh vw clk : Nat) :
    List PBFTValidator → Nat → Nat → LoopOut
  | [], _pos, tick => ⟨[], tick, 0, 0, []⟩
  | v :: rest, pos, tick =>
    if pos = primaryIdx then
      let r := prepLoop o primaryIdx bh vw clk rest (pos + 1) tick
      ⟨v :: r.vs, r.tick, r.count, r.byz, r.events⟩
    else
      match exhibitsByzantineFailure o v tick with
      | (none, v1, t1) =>
        let v2 := recordPrepareSent v1
        let r := prepLoop o primaryIdx bh vw clk rest (pos + 1) t1
        ⟨v2 :: r.vs, r.tick, r.count + 1, r.byz, r.events⟩
      | (some BFault.crash, v1, t1) =>
        let ev := mkByzEvent clk v1 bh vw "prepare" BFault.crash
        let r := prepLoop o primaryIdx bh vw clk rest (pos + 1) t1
        ⟨v1 :: r.vs, r.tick, r.count, r.byz + 1, ev :: r.events⟩
      | (some bf, v1, t1) =>
        let ev := mkByzEvent clk v1 bh vw "prepare" bf
        let v2 := recordPrepareSent v1
        let r := prepLoop o primaryIdx bh vw clk rest (pos + 1) t1
        ⟨v2 :: r.vs, r.tick, r.count + 1, r.byz + 1, ev :: r.events⟩

/-- The commit-phase loop over `this.validators` (pbft-runner.js:385-410):
identical to the prepare loop except that the primary is *not* skipped and
participation is recorded with `recordCommit(false)`. -/
def commitLoop (o : Nat → Bool) (bh vw clk : Nat) :
    List PBFTValidator → Nat → LoopOut
  | [], tick => ⟨[], tick, 0, 0, []⟩
  | v :: rest, tick =>
    match exhibitsByzantineFailure o v tick with
    | (none, v1, t1) =>
      let v2 := recordCommitSent v1
      let r := commitLoop o bh vw clk rest t1
      ⟨v2 :: r.vs, r.tick, r.count + 1, r.byz, r.events⟩
    | (some BFault.crash, v1, t1) =>
      let ev := mkByzEvent clk v1 bh vw "commit" BFault.crash
      let r := commitLoop o bh vw clk rest t1
      ⟨v1 :: r.vs, r.tick, r.count, r.byz + 1, ev :: r.events⟩
    | (some bf, v1, t1) =>
      let ev := mkByzEvent clk v1 bh vw "commit" bf
      let v2 := recordCommitSent v1
      let r := commitLoop o bh vw clk rest t1
      ⟨v2 :: r.vs, r.tick, r.count + 1, r.byz + 1, ev :: r.events⟩

/-- Result of the view-change loop: updated validators, next draw cursor,
acknowledgement count.  Note: no events — the source records none here. -/
structure VCOut where
  vs : List PBFTValidator
  tick : Nat
  count : Nat
deriving DecidableEq, Repr

/-- The view-change loop over `this.validators` (pbft-runner.js:456-467):
each validator is consulted; only `'crash'` skips (`continue`), every other
outcome — including `'malicious'` and `'delayed'` — falls through to
`recordViewChange(false)` and `viewChangeMsgCount++`.  Unlike the three
phases, `recordByzantineEvent` is *not* called in this loop. -/
def vcLoop (o : Nat → Bool) : List PBFTValidator → Nat → VCOut
  | [], tick => ⟨[], tick, 0⟩
  | v :: rest, tick =>
    match exhibitsByzantineFailure o v tick with
    | (some BFault.crash, v1, t1) =>
      let r := vcLoop o rest t1
      ⟨v1 :: r.vs, r.tick, r.count⟩
    | (some _, v1, t1) =>
      let v2 := recordViewChangeSent v1
      let r := vcLoop o rest t1
      ⟨v2 :: r.vs, r.tick, r.count + 1⟩
    | (none, v1, t1) =>
      let v2 := recordViewChangeSent v1
      let r := vcLoop o rest t1
      ⟨v2 :: r.vs, r.tick, r.count + 1⟩

/-- `runPrePreparePhase(txData)` (pbft-runner.js:261-304).  The primary is
consulted by the fault model: `'crash'` records the event and throws
`"Primary crashed during pre-prepare phase"` *before* `recordProposal()`;
`'delayed'` additionally sleeps `VIEW_CHANGE_TIMEOUT / 2`; otherwise the
primary proposes, `N` pre-prepare messages of 1024 bytes are accounted,
the phase sleeps `PRE_PREPARE_PHASE_TIME`, and a phase record (participant
count `null`) is appended.  Returns the mutated state together with
`.ok phaseDuration` or `.error message`. -/
def runPrePreparePhase (cfg : Config) (o : Nat → Bool) (s : PBFTState) :
    PBFTState × Except String Nat :=
  let phaseStartTime := s.clock
  let primaryIdx := s.currentView % s.validators.length
  match s.validators[primaryIdx]? with
  | none => (s, Except.error "no primary")
  | some primary =>
    match exhibitsByzantineFailure o primary s.tick with
    | (bf, p1, t1) =>
      let s1 := { s with validators := s.validators.set primaryIdx p1, tick := t1 }
      match bf with
      | some BFault.crash =>
        let ev := mkByzEvent s1.clock p1 s1.blockHeight s1.currentView "pre-prepare" BFault.crash
        ({ s1 with byzantineEvents := s1.byzantineEvents ++ [ev] },
         Except.error "Primary crashed during pre-prepare phase")
      | some bft =>
        let ev := mkByzEvent s1.clock p1 s1.blockHeight s1.currentView "pre-prepare" bft
        let s2 := { s1 with byzantineEvents := s1.byzantineEvents ++ [ev] }
        let s3 := if bft = BFault.delayed
          then { s2 with clock := s2.clock + cfg.viewChangeTimeout / 2 } else s2
        let s4 := { s3 with validators := s3.validators.set primaryIdx (recordProposal p1) }
        let messagesSent := s4.validators.length
        let nmr : NetworkMessageRecord :=
          ⟨s4.clock, s4.blockHeight, s4.currentView, "pre-prepare", messagesSent, 1024,
            messagesSent * 1024⟩
        let s5 := { s4 with networkMessages := s4.networkMessages ++ [nmr] }
        let s6 := { s5 with clock := s5.clock + cfg.prePrepareTime }
        let phaseDuration := s6.clock - phaseStartTime
        let pr : PhaseRecord :=
          ⟨s6.clock, s6.blockHeight, s6.currentView, "pre-prepare", phaseDuration,
            messagesSent, none, 0⟩
        let s7 := { s6 with consensusPhases := s6.consensusPhases ++ [pr] }
        (s7, Except.ok phaseDuration)
      | none =>
        let s4 := { s1 with validators := s1.validators.set primaryIdx (recordProposal p1) }
        let messagesSent := s4.validators.length
        let nmr : NetworkMessageRecord :=
          ⟨s4.clock, s4.blockHeight, s4.currentView, "pre-prepare", messagesSent, 1024,
            messagesSent * 1024⟩
        let s5 := { s4 with networkMessages := s4.networkMessages ++ [nmr] }
        let s6 := { s5 with clock := s5.clock + cfg.prePrepareTime }
        let phaseDuration := s6.clock - phaseStartTime
        let pr : PhaseRecord :=
          ⟨s6.clock, s6.blockHeight, s6.currentView, "pre-prepare", phaseDuration,
            messagesSent, none, 0⟩
        let s7 := { s6 with consensusPhases := s6.consensusPhases ++ [pr] }
        (s7, Except.ok phaseDuration)

/-- The prepare loop as actually invoked by `runPreparePhase` on a state. -/
def prepOutOf (o : Nat → Bool) (s : PBFTState) : LoopOut :=
  prepLoop o (s.currentView % s.validators.length) s.blockHeight s.currentView
    s.clock s.validators 0 s.tick

/-- `runPreparePhase(txData)` (pbft-runner.js:309-371).  Runs the prepare
loop, sleeps `PREPARE_PHASE_TIME`, then throws
`"Insufficient prepare messages: X/required"` when `prepareCount < 2f+1`;
otherwise accounts `prepareCount × N` messages of 512 bytes and appends a
phase record. -/
def runPreparePhase (cfg : Config) (o : Nat → Bool) (s : PBFTState) :
    PBFTState × Except String Nat :=
  let phaseStartTime := s.clock
  let out := prepOutOf o s
  let s1 := { s with validators := out.vs, tick := out.tick,
                     byzantineEvents := s.byzantineEvents ++ out.events,
                     clock := s.clock + cfg.prepareTime }
  let requiredPrepares := 2 * s.f + 1
  if out.count < requiredPrepares then
    (s1, Except.error ("Insufficient prepare messages: " ++ toString out.count ++ "/"
          ++ toString requiredPrepares))
  else
    let messagesSent := out.count * s1.validators.length
    let nmr : NetworkMessageRecord :=
      ⟨s1.clock, s1.blockHeight, s1.currentView, "prepare", messagesSent, 512,
        messagesSent * 512⟩
    let s2 := { s1 with networkMessages := s1.networkMessages ++ [nmr] }
    let phaseDuration := s2.clock - phaseStartTime
    let pr : PhaseRecord :=
      ⟨s2.clock, s2.blockHeight, s2.currentView, "prepare", phaseDuration, messagesSent,
        some out.count, out.byz⟩
    let s3 := { s2 with consensusPhases := s2.consensusPhases ++ [pr] }
    (s3, Except.ok phaseDuration)

/-- The commit loop as actually invoked by `runCommitPhase` on a state. -/
def commitOutOf (o : Nat → Bool) (s : PBFTState) : LoopOut :=
  commitLoop o s.blockHeight s.currentView s.clock s.validators s.tick

/-- `runCommitPhase(txData)` (pbft-runner.js:376-435): same shape as the
prepare phase but over *all* validators, with
`"Insufficient commit messages: X/required"` on a missed quorum. -/
def runCommitPhase (cfg : Config) (o : Nat → Bool) (s : PBFTState) :
    PBFTState × Except String Nat :=
  let phaseStartTime := s.clock
  let out := commitOutOf o s
  let s1 := { s with validators := out.vs, tick := out.tick,
                     byzantineEvents := s.byzantineEvents ++ out.events,
                     clock := s.clock + cfg.commitTime }
  let requiredCommits := 2 * s.f + 1
  if out.count < requiredCommits then
    (s1, Except.error ("Insufficient commit messages: " ++ toString out.count ++ "/"
          ++ toString requiredCommits))
  else
    let messagesSent := out.count * s1.validators.length
    let nmr : NetworkMessageRecord :=
      ⟨s1.clock, s1.blockHeight, s1.currentView, "commit", messagesSent, 512,
        messagesSent * 512⟩
    let s2 := { s1 with networkMessages := s1.networkMessages ++ [nmr] }
    let phaseDuration := s2.clock - phaseStartTime
    let pr : PhaseRecord :=
      ⟨s2.clock, s2.blockHeight, s2.currentView, "commit", phaseDuration, messagesSent,
        some out.count, out.byz⟩
    let s3 := { s2 with consensusPhases := s2.consensusPhases ++ [pr] }
    (s3, Except.ok phaseDuration)

/-- `initiateViewChange(reason)` (pbft-runner.js:440-504).  No-op when a view
change is already in progress; otherwise: set the in-progress flag, increment
the view, run the view-change loop (crash validators skipped, *no* Byzantine
events recorded), sleep `VIEW_CHANGE_TIMEOUT`, log-only warning when the
acknowledgement count misses `2f+1`, append a `ViewChangeRecord` with
`messageCount = ackCount × N`, clear the flag. -/
def initiateViewChange (cfg : Config) (o : Nat → Bool) (s : PBFTState)
    (reason : String) : PBFTState :=
  if s.viewChangeInProgress then s
  else
    let viewChangeStartTime := s.clock
    let oldView := s.currentView
    let s1 := { s with viewChangeInProgress := true, currentView := s.currentView + 1 }
    let out := vcLoop o s1.validators s1.tick
    let s2 := { s1 with validators := out.vs, tick := out.tick,
                        clock := s1.clock + cfg.viewChangeTimeout }
    let newPrimary := getPrimary s2
    let viewChangeDuration := s2.clock - viewChangeStartTime
    let vcr : ViewChangeRecord :=
      ⟨s2.clock, oldView, s2.currentView, reason, viewChangeDuration,
       out.count * s2.validators.length, newPrimary.map PBFTValidator.address⟩
    { s2 with viewChanges := s2.viewChanges ++ [vcr], viewChangeInProgress := false }

/-- Result of `runConsensus` (pbft-runner.js:224-249): the success object
carries `{blockHeight, view, primary, phaseTimings, totalTime, timestamp}`;
the failure object carries only `{blockHeight, view, error, timestamp}`. -/
inductive RoundResult where
  | committed (blockHeight view : Nat) (primary : Option Nat)
      (prePrepare prepare commit totalTime timestamp : Nat)
  | failed (blockHeight view : Nat) (error : String) (timestamp : Nat)
deriving DecidableEq, Repr

/-- The `catch` block of `runConsensus` (pbft-runner.js:235-250): trigger a
view change when none is in flight, then build the failure result from the
*current* (post-view-change) state. -/
def failRound (cfg : Config) (o : Nat → Bool) (s : PBFTState) (msg : String) :
    RoundResult × PBFTState :=
  let s1 := if s.viewChangeInProgress then s else initiateViewChange cfg o s msg
  (RoundResult.failed s1.blockHeight s1.currentView msg s1.clock, s1)

/-- `runConsensus(txHash, receipt)` (pbft-runner.js:193-256): increment the
height, run the three phases in sequence inside a try block; on success
report `totalTime` as the sum of the three phase durations; any phase throw
lands in the catch block (`failRound`). -/
def runConsensus (cfg : Config) (o : Nat → Bool) (s : PBFTState) :
    RoundResult × PBFTState :=
  let s0 := { s with blockHeight := s.blockHeight + 1 }
  match runPrePreparePhase cfg o s0 with
  | (s1, Except.error msg) => failRound cfg o s1 msg
  | (s1, Except.ok d1) =>
    match runPreparePhase cfg o s1 with
    | (s2, Except.error msg) => failRound cfg o s2 msg
    | (s2, Except.ok d2) =>
      match runCommitPhase cfg o s2 with
      | (s3, Except.error msg) => failRound cfg o s3 msg
      | (s3, Except.ok d3) =>
        let totalTime := d1 + d2 + d3
        (RoundResult.committed s3.blockHeight s3.currentView
          ((getPrimary s3).map PBFTValidator.address) d1 d2 d3 totalTime s3.clock, s3)

/-- Driver iteration: `n` successive `runConsensus` calls (the per-work-item
loop of `runPBFTConsensus`), keeping only the evolving state. -/
def runRounds (cfg : Config) (o : Nat → Bool) : Nat → PBFTState → PBFTState
  | 0, s => s
  | n + 1, s => runRounds cfg o n (runConsensus cfg o s).2

/-- The spec's Quorum Evaluator (`evaluate(phase, participantCount, f)`),
written from the spec's words to be compared with the inline
`count < 2 * f + 1` throw-checks of the source phases: `Agreed`
(`true`) iff the count is not below `2f+1`. -/
def quorumAgreed (participantCount f : Nat) : Bool :=
  !(participantCount < 2 * f + 1)

/-- Number of loop iterations of the prepare loop in which the fault model
yields `'crash'` (the validators excluded by `continue`): the
"simultaneously crashing validators" of the phase. -/
def prepCrashes (o : Nat → Bool) (primaryIdx : Nat) :
    List PBFTValidator → Nat → Nat → Nat
  | [], _pos, _tick => 0
  | v :: rest, pos, tick =>
    if pos = primaryIdx then prepCrashes o primaryIdx rest (pos + 1) tick
    else
      match exhibitsByzantineFailure o v tick with
      | (some BFault.crash, _, t1) => prepCrashes o primaryIdx rest (pos + 1) t1 + 1
      | (some _, _, t1) => prepCrashes o primaryIdx rest (pos + 1) t1
      | (none, _, t1) => prepCrashes o primaryIdx rest (pos + 1) t1

/-- Number of commit-loop iterations in which the fault model yields
`'crash'`. -/
def commitCrashes (o : Nat → Bool) : List PBFTValidator → Nat → Nat
  | [], _tick => 0
  | v :: rest, tick =>
    match exhibitsByzantineFailure o v tick with
    | (some BFault.crash, _, t1) => commitCrashes o rest t1 + 1
    | (some _, _, t1) => commitCrashes o rest t1
    | (none, _, t1) => commitCrashes o rest t1

/-- Crashing-validator count of the prepare phase run from state `s`. -/
def prepCrashesOf (o : Nat → Bool) (s : PBFTState) : Nat :=
  prepCrashes o (s.currentView % s.validators.length) s.validators 0 s.tick

/-- Crashing-validator count of the commit phase run from state `s`. -/
def commitCrashesOf (o : Nat → Bool) (s : PBFTState) : Nat :=
  commitCrashes o s.validators s.tick

/-- The fault-model outcome for the primary in the pre-prepare phase run
from state `s`. -/
def prePrepareFaultOf (o : Nat → Bool) (s : PBFTState) : Option BFault :=
  match getPrimary s with
  | none => none
  | some p => (exhibitsByzantineFailure o p s.tick).1

/-- Observation of the constant part of a validator: its Byzantine
configuration, with the `failures` counter masked for Byzantine validators
(whose counter legitimately moves). -/
def byzObs (v : PBFTValidator) : Bool × Option BFault × Nat :=
  (v.isByzantine, v.byzantineType, if v.isByzantine then 0 else v.failures)

/-- Oracle on which every `Math.random() < p` draw succeeds (e.g. failure
probability forced to 1.0). -/
def oracleTrue : Nat → Bool := fun _ => true

/-- Oracle on which every draw fails (all failure probabilities 0). -/
def oracleFalse : Nat → Bool := fun _ => false

/-- Scenario A configuration: N = 4 honest validators (f = 1). -/
def stA : PBFTState := initState
  [mkValidator 10 0 false none, mkValidator 11 1 false none,
   mkValidator 12 2 false none, mkValidator 13 3 false none]

/-- Scenario B configuration: N = 4, the view-0 primary is Byzantine with
kind `crash`, the rest honest. -/
def stB : PBFTState := initState
  [mkValidator 10 0 true (some BFault.crash), mkValidator 11 1 false none,
   mkValidator 12 2 false none, mkValidator 13 3 false none]

/-- Scenario C configuration: N = 4, honest primary, all three non-primary
validators Byzantine with kind `crash`. -/
def stC : PBFTState := initState
  [mkValidator 10 0 false none,
   mkValidator 11 1 true (some BFault.crash),
   mkValidator 12 2 true (some BFault.crash),
   mkValidator 13 3 true (some BFault.crash)]

/-! ### Basic facts about the fault model -/

/-- One `exhibitsByzantineFailure` call either leaves the validator alone or
(only for a Byzantine validator) bumps its `failures` counter. -/
theorem exhibits_cases (o : Nat → Bool) (v : PBFTValidator) (t : Nat) :
    (exhibitsByzantineFailure o v t).2.1 = v ∨
    (v.isByzantine = true ∧
      (exhibitsByzantineFailure o v t).2.1 = { v with failures := v.failures + 1 }) := by
  unfold exhibitsByzantineFailure
  split
  · exact Or.inl rfl
  · next h =>
    split
    · exact Or.inr ⟨by revert h; cases v.isByzantine <;> simp, rfl⟩
    · exact Or.inl rfl

/-- The fault result is `none` or the validator's configured kind. -/
theorem exhibits_result (o : Nat → Bool) (v : PBFTValidator) (t : Nat) :
    (exhibitsByzantineFailure o v t).1 = none ∨
    (exhibitsByzantineFailure o v t).1 = v.byzantineType := by
  unfold exhibitsByzantineFailure
  split
  · exact Or.inl rfl
  · split
    · exact Or.inr rfl
    · exact Or.inl rfl

/-- A non-Byzantine validator never exhibits a failure, is not modified, and
consumes no random draw. -/
theorem exhibits_nonByz (o : Nat → Bool) (v : PBFTValidator) (t : Nat)
    (h : v.isByzantine = false) : exhibitsByzantineFailure o v t = (none, v, t) := by
  unfold exhibitsByzantineFailure
  rw [if_pos h]

/-- A draw-outcome of `false` yields no failure and no mutation. -/
theorem exhibits_noFault (o : Nat → Bool) (v : PBFTValidator) (t : Nat)
    (h : o t = false) : (exhibitsByzantineFailure o v t).1 = none ∧
      (exhibitsByzantineFailure o v t).2.1 = v := by
  unfold exhibitsByzantineFailure
  split
  · exact ⟨rfl, rfl⟩
  · rw [h]; exact ⟨rfl, rfl⟩

/-- `byzObs` is invariant under one fault-model call. -/
theorem byzObs_exhibits (o : Nat → Bool) (v : PBFTValidator) (t : Nat) :
    byzObs (exhibitsByzantineFailure o v t).2.1 = byzObs v := by
  rcases exhibits_cases o v t with h | ⟨hb, h⟩
  · rw [h]
  · rw [h]; simp [byzObs, hb]

/-- `byzObs` is invariant under the participation-recording functions. -/
theorem byzObs_records (v : PBFTValidator) :
    byzObs (recordPrepareSent v) = byzObs v ∧ byzObs (recordCommitSent v) = byzObs v ∧
    byzObs (recordProposal v) = byzObs v ∧ byzObs (recordViewChangeSent v) = byzObs v :=
  ⟨rfl, rfl, rfl, rfl⟩

/-! ### Generic preservation through the validator loops -/

/-- Setting a position to an observationally equal element preserves the
mapped list. -/
theorem map_set_eq {γ : Type} (g : PBFTValidator → γ) :
    ∀ (l : List PBFTValidator) (i : Nat) (a x : PBFTValidator),
      l[i]? = some x → g a = g x → (l.set i a).map g = l.map g := by
  intro l
  induction l with
  | nil => intro i a x h _; simp at h
  | cons y ys ih =>
    intro i a x h hg
    cases i with
    | zero =>
      simp at h
      subst h
      simp [List.set, hg]
    | succ j =>
      simp at h
      simp only [List.set, List.map_cons]
      rw [ih j a x h hg]

/-- Mapped lookup agrees whenever the mapped lists agree. -/
theorem get?_map_eq {γ : Type} (g : PBFTValidator → γ) (l l' : List PBFTValidator)
    (h : l'.map g = l.map g) (i : Nat) : l'[i]?.map g = l[i]?.map g := by
  rw [← List.getElem?_map, ← List.getElem?_map, h]

/-- Any observation preserved by `recordPrepareSent` and by the fault model is
preserved by the prepare loop, which also preserves the list's length. -/
theorem prepLoop_map_eq {γ : Type} (g : PBFTValidator → γ)
    (hrec : ∀ v, g (recordPrepareSent v) = g v)
    (hex : ∀ o v t, g (exhibitsByzantineFailure o v t).2.1 = g v)
    (o : Nat → Bool) (pI bh vw clk : Nat) :
    ∀ (vs : List PBFTValidator) (pos tick : Nat),
      (prepLoop o pI bh vw clk vs pos tick).vs.map g = vs.map g := by
  intro vs
  induction vs with
  | nil => intro pos tick; rfl
  | cons v rest ih =>
    intro pos tick
    rw [prepLoop]
    split
    · simp [ih]
    · rcases hx : exhibitsByzantineFailure o v tick with ⟨bf, v1, t1⟩
      have hv1 : g v1 = g v := by
        have := hex o v tick; rwa [hx] at this
      rcases bf with _ | k
      · simp [ih, hrec, hv1]
      · cases k <;> simp [ih, hrec, hv1]

/-- Same preservation principle for the commit loop. -/
theorem commitLoop_map_eq {γ : Type} (g : PBFTValidator → γ)
    (hrec : ∀ v, g (recordCommitSent v) = g v)
    (hex : ∀ o v t, g (exhibitsByzantineFailure o v t).2.1 = g v)
    (o : Nat → Bool) (bh vw clk : Nat) :
    ∀ (vs : List PBFTValidator) (tick : Nat),
      (commitLoop o bh vw clk vs tick).vs.map g = vs.map g := by
  intro vs
  induction vs with
  | nil => intro tick; rfl
  | cons v rest ih =>
    intro tick
    rw [commitLoop]
    rcases hx : exhibitsByzantineFailure o v tick with ⟨bf, v1, t1⟩
    have hv1 : g v1 = g v := by
      have := hex o v tick; rwa [hx] at this
    rcases bf with _ | k
    · simp [ih, hrec, hv1]
    · cases k <;> simp [ih, hrec, hv1]

/-- Same preservation principle for the view-change loop. -/
theorem vcLoop_map_eq {γ : Type} (g : PBFTValidator → γ)
    (hrec : ∀ v, g (recordViewChangeSent v) = g v)
    (hex : ∀ o v t, g (exhibitsByzantineFailure o v t).2.1 = g v)
    (o : Nat → Bool) :
    ∀ (vs : List PBFTValidator) (tick : Nat),
      (vcLoop o vs tick).vs.map g = vs.map g := by
  intro vs
  induction vs with
  | nil => intro tick; rfl
  | cons v rest ih =>
    intro tick
    rw [vcLoop]
    rcases hx : exhibitsByzantineFailure o v tick with ⟨bf, v1, t1⟩
    have hv1 : g v1 = g v := by
      have := hex o v tick; rwa [hx] at this
    rcases bf with _ | k
    · simp [ih, hrec, hv1]
    · cases k <;> simp [ih, hrec, hv1]

/-- The loops do not change the number of validators. -/
theorem loops_length (o : Nat → Bool) (pI bh vw clk : Nat)
    (vs : List PBFTValidator) (pos tick : Nat) :
    (prepLoop o pI bh vw clk vs pos tick).vs.length = vs.length
    ∧ (commitLoop o bh vw clk vs tick).vs.length = vs.length
    ∧ (vcLoop o vs tick).vs.length = vs.length := by
  refine ⟨?_, ?_, ?_⟩
  · have := prepLoop_map_eq (fun _ => ()) (fun _ => rfl) (fun _ _ _ => rfl) o pI bh vw clk vs pos tick
    simpa using congrArg List.length this
  · have := commitLoop_map_eq (fun _ => ()) (fun _ => rfl) (fun _ _ _ => rfl) o bh vw clk vs tick
    simpa using congrArg List.length this
  · have := vcLoop_map_eq (fun _ => ()) (fun _ => rfl) (fun _ _ _ => rfl) o vs tick
    simpa using congrArg List.length this

/-! ### Participant / crash accounting -/

/-- In the prepare loop, participants, crashed validators and the (at most
one) skipped primary partition the list. -/
theorem prepLoop_count_crashes (o : Nat → Bool) (pI bh vw clk : Nat) :
    ∀ (vs : List PBFTValidator) (pos tick : Nat),
      (prepLoop o pI bh vw clk vs pos tick).count + prepCrashes o pI vs pos tick
        + (if pos ≤ pI ∧ pI < pos + vs.length then 1 else 0) = vs.length := by
  intro vs
  induction vs with
  | nil =>
    intro pos tick
    simp [prepLoop, prepCrashes]
  | cons v rest ih =>
    intro pos tick
    rw [prepLoop, prepCrashes]
    by_cases hp : pos = pI
    · rw [if_pos hp, if_pos hp]
      dsimp only
      have h2 := ih (pos + 1) tick
      rw [if_neg (by omega)] at h2
      rw [if_pos (by simp only [List.length_cons]; omega)]
      simp only [List.length_cons]
      omega
    · rw [if_neg hp, if_neg hp]
      rcases hx : exhibitsByzantineFailure o v tick with ⟨bf, v1, t1⟩
      rcases bf with _ | k
      · dsimp only
        have h2 := ih (pos + 1) t1
        simp only [List.length_cons]
        by_cases hc : pos + 1 ≤ pI ∧ pI < pos + 1 + rest.length
        · rw [if_pos hc] at h2
          rw [if_pos (by omega)]
          omega
        · rw [if_neg hc] at h2
          rw [if_neg (by omega)]
          omega
      · cases k <;>
          (dsimp only
           have h2 := ih (pos + 1) t1
           simp only [List.length_cons]
           by_cases hc : pos + 1 ≤ pI ∧ pI < pos + 1 + rest.length
           · rw [if_pos hc] at h2
             rw [if_pos (by omega)]
             omega
           · rw [if_neg hc] at h2
             rw [if_neg (by omega)]
             omega)

/-- In the commit loop, participants and crashed validators partition the
list. -/
theorem commitLoop_count_crashes (o : Nat → Bool) (bh vw clk : Nat) :
    ∀ (vs : List PBFTValidator) (tick : Nat),
      (commitLoop o bh vw clk vs tick).count + commitCrashes o vs tick = vs.length := by
  intro vs
  induction vs with
  | nil => intro tick; simp [commitLoop, commitCrashes]
  | cons v rest ih =>
    intro tick
    rw [commitLoop, commitCrashes]
    rcases hx : exhibitsByzantineFailure o v tick with ⟨bf, v1, t1⟩
    rcases bf with _ | k
    · dsimp only
      have h2 := ih t1
      simp only [List.length_cons]
      omega
    · cases k <;>
        (dsimp only
         have h2 := ih t1
         simp only [List.length_cons]
         omega)

/-- Each triggered fault in the prepare loop records exactly one Byzantine
event; every recorded event carries the phase tag `"prepare"`, the height and
the view. -/
theorem prepLoop_events (o : Nat → Bool) (pI bh vw clk : Nat) :
    ∀ (vs : List PBFTValidator) (pos tick : Nat),
      (prepLoop o pI bh vw clk vs pos tick).events.length
        = (prepLoop o pI bh vw clk vs pos tick).byz
      ∧ ∀ e ∈ (prepLoop o pI bh vw clk vs pos tick).events,
          e.phase = "prepare" ∧ e.blockHeight = bh ∧ e.view = vw := by
  intro vs
  induction vs with
  | nil =>
    intro pos tick
    rw [prepLoop]
    exact ⟨rfl, by intro e he; simp at he⟩
  | cons v rest ih =>
    intro pos tick
    rw [prepLoop]
    split
    · dsimp only
      exact ih (pos + 1) tick
    · rcases hx : exhibitsByzantineFailure o v tick with ⟨bf, v1, t1⟩
      rcases bf with _ | k
      · dsimp only
        exact ih (pos + 1) t1
      · cases k <;>
          (dsimp only
           refine ⟨by simp [(ih (pos + 1) t1).1], ?_⟩
           intro e he
           simp only [List.mem_cons] at he
           rcases he with he | he
           · subst he; exact ⟨rfl, rfl, rfl⟩
           · exact (ih (pos + 1) t1).2 e he)

/-- Each triggered fault in the commit loop records exactly one Byzantine
event, tagged `"commit"`. -/
theorem commitLoop_events (o : Nat → Bool) (bh vw clk : Nat) :
    ∀ (vs : List PBFTValidator) (tick : Nat),
      (commitLoop o bh vw clk vs tick).events.length = (commitLoop o bh vw clk vs tick).byz
      ∧ ∀ e ∈ (commitLoop o bh vw clk vs tick).events,
          e.phase = "commit" ∧ e.blockHeight = bh ∧ e.view = vw := by
  intro vs
  induction vs with
  | nil =>
    intro tick
    rw [commitLoop]
    exact ⟨rfl, by intro e he; simp at he⟩
  | cons v rest ih =>
    intro tick
    rw [commitLoop]
    rcases hx : exhibitsByzantineFailure o v tick with ⟨bf, v1, t1⟩
    rcases bf with _ | k
    · dsimp only
      exact ih t1
    · cases k <;>
        (dsimp only
         refine ⟨by simp [(ih t1).1], ?_⟩
         intro e he
         simp only [List.mem_cons] at he
         rcases he with he | he
         · subst he; exact ⟨rfl, rfl, rfl⟩
         · exact (ih t1).2 e he)

/-! ### Phase-level invariants -/

/-- The fault model never changes a validator's identity. -/
theorem address_exhibits (o : Nat → Bool) (v : PBFTValidator) (t : Nat) :
    (exhibitsByzantineFailure o v t).2.1.address = v.address := by
  rcases exhibits_cases o v t with h | ⟨_, h⟩ <;> rw [h]

/-- The fault model never changes a validator's index. -/
theorem index_exhibits (o : Nat → Bool) (v : PBFTValidator) (t : Nat) :
    (exhibitsByzantineFailure o v t).2.1.index = v.index := by
  rcases exhibits_cases o v t with h | ⟨_, h⟩ <;> rw [h]

/-- The pre-prepare phase touches neither the view, nor `f`, the height, the
view-change flag, the validator count, the view-change log, the validator
identities, or the Byzantine configuration. -/
theorem runPrePreparePhase_inv (cfg : Config) (o : Nat → Bool) (s : PBFTState) :
    (runPrePreparePhase cfg o s).1.currentView = s.currentView
    ∧ (runPrePreparePhase cfg o s).1.f = s.f
    ∧ (runPrePreparePhase cfg o s).1.blockHeight = s.blockHeight
    ∧ (runPrePreparePhase cfg o s).1.viewChangeInProgress = s.viewChangeInProgress
    ∧ (runPrePreparePhase cfg o s).1.validators.length = s.validators.length
    ∧ (runPrePreparePhase cfg o s).1.viewChanges = s.viewChanges
    ∧ (runPrePreparePhase cfg o s).1.validators.map PBFTValidator.address
        = s.validators.map PBFTValidator.address
    ∧ (runPrePreparePhase cfg o s).1.validators.map byzObs = s.validators.map byzObs := by
  rw [runPrePreparePhase]
  rcases hg : s.validators[s.currentView % s.validators.length]? with _ | p
  · exact ⟨rfl, rfl, rfl, rfl, rfl, rfl, rfl, rfl⟩
  · dsimp only
    rcases hx : exhibitsByzantineFailure o p s.tick with ⟨bf, p1, t1⟩
    have haddr : p1.address = p.address := by
      have := address_exhibits o p s.tick; rwa [hx] at this
    have hobs : byzObs p1 = byzObs p := by
      have := byzObs_exhibits o p s.tick; rwa [hx] at this
    rcases bf with _ | k
    · dsimp only
      refine ⟨rfl, rfl, rfl, rfl, ?_, rfl, ?_, ?_⟩
      · simp [List.length_set]
      · rw [List.set_set]; exact map_set_eq _ _ _ _ _ hg haddr
      · rw [List.set_set]; exact map_set_eq _ _ _ _ _ hg hobs
    · cases k
      · dsimp only
        refine ⟨rfl, rfl, rfl, rfl, ?_, rfl, ?_, ?_⟩
        · simp [List.length_set]
        · exact map_set_eq _ _ _ _ _ hg haddr
        · exact map_set_eq _ _ _ _ _ hg hobs
      · dsimp only
        split <;>
          (refine ⟨rfl, rfl, rfl, rfl, ?_, rfl, ?_, ?_⟩
           · simp [List.length_set]
           · rw [List.set_set]; exact map_set_eq _ _ _ _ _ hg haddr
           · rw [List.set_set]; exact map_set_eq _ _ _ _ _ hg hobs)
      · dsimp only
        split <;>
          (refine ⟨rfl, rfl, rfl, rfl, ?_, rfl, ?_, ?_⟩
           · simp [List.length_set]
           · rw [List.set_set]; exact map_set_eq _ _ _ _ _ hg haddr
           · rw [List.set_set]; exact map_set_eq _ _ _ _ _ hg hobs)

/-- Same invariants for the prepare phase. -/
theorem runPreparePhase_inv (cfg : Config) (o : Nat → Bool) (s : PBFTState) :
    (runPreparePhase cfg o s).1.currentView = s.currentView
    ∧ (runPreparePhase cfg o s).1.f = s.f
    ∧ (runPreparePhase cfg o s).1.blockHeight = s.blockHeight
    ∧ (runPreparePhase cfg o s).1.viewChangeInProgress = s.viewChangeInProgress
    ∧ (runPreparePhase cfg o s).1.validators.length = s.validators.length
    ∧ (runPreparePhase cfg o s).1.viewChanges = s.viewChanges
    ∧ (runPreparePhase cfg o s).1.validators.map PBFTValidator.address
        = s.validators.map PBFTValidator.address
    ∧ (runPreparePhase cfg o s).1.validators.map byzObs = s.validators.map byzObs := by
  have hlen : (prepOutOf o s).vs.length = s.validators.length := by
    rw [prepOutOf]
    exact (loops_length o _ s.blockHeight s.currentView s.clock s.validators 0 s.tick).1
  have haddr : (prepOutOf o s).vs.map PBFTValidator.address
      = s.validators.map PBFTValidator.address := by
    rw [prepOutOf]
    exact prepLoop_map_eq PBFTValidator.address (fun v => rfl) address_exhibits o _ _ _ _ s.validators 0 s.tick
  have hobs : (prepOutOf o s).vs.map byzObs = s.validators.map byzObs := by
    rw [prepOutOf]
    exact prepLoop_map_eq byzObs (fun v => rfl) byzObs_exhibits o _ _ _ _ s.validators 0 s.tick
  rw [runPreparePhase]
  dsimp only
  split <;> exact ⟨rfl, rfl, rfl, rfl, hlen, rfl, haddr, hobs⟩

/-- Same invariants for the commit phase. -/
theorem runCommitPhase_inv (cfg : Config) (o : Nat → Bool) (s : PBFTState) :
    (runCommitPhase cfg o s).1.currentView = s.currentView
    ∧ (runCommitPhase cfg o s).1.f = s.f
    ∧ (runCommitPhase cfg o s).1.blockHeight = s.blockHeight
    ∧ (runCommitPhase cfg o s).1.viewChangeInProgress = s.viewChangeInProgress
    ∧ (runCommitPhase cfg o s).1.validators.length = s.validators.length
    ∧ (runCommitPhase cfg o s).1.viewChanges = s.viewChanges
    ∧ (runCommitPhase cfg o s).1.validators.map PBFTValidator.address
        = s.validators.map PBFTValidator.address
    ∧ (runCommitPhase cfg o s).1.validators.map byzObs = s.validators.map byzObs := by
  have hlen : (commitOutOf o s).vs.length = s.validators.length := by
    rw [commitOutOf]
    exact (loops_length o 0 s.blockHeight s.currentView s.clock s.validators 0 s.tick).2.1
  have haddr : (commitOutOf o s).vs.map PBFTValidator.address
      = s.validators.map PBFTValidator.address := by
    rw [commitOutOf]
    exact commitLoop_map_eq PBFTValidator.address (fun v => rfl) address_exhibits o _ _ _ s.validators s.tick
  have hobs : (commitOutOf o s).vs.map byzObs = s.validators.map byzObs := by
    rw [commitOutOf]
    exact commitLoop_map_eq byzObs (fun v => rfl) byzObs_exhibits o _ _ _ s.validators s.tick
  rw [runCommitPhase]
  dsimp only
  split <;> exact ⟨rfl, rfl, rfl, rfl, hlen, rfl, haddr, hobs⟩

/-- The fault model never changes a validator's proposal counter. -/
theorem blocksProposed_exhibits (o : Nat → Bool) (v : PBFTValidator) (t : Nat) :
    (exhibitsByzantineFailure o v t).2.1.blocksProposed = v.blocksProposed := by
  rcases exhibits_cases o v t with h | ⟨_, h⟩ <;> rw [h]

/-- The fault model never changes a validator's prepare counter. -/
theorem preparesSent_exhibits (o : Nat → Bool) (v : PBFTValidator) (t : Nat) :
    (exhibitsByzantineFailure o v t).2.1.preparesSent = v.preparesSent := by
  rcases exhibits_cases o v t with h | ⟨_, h⟩ <;> rw [h]

/-- The fault model never changes a validator's commit counter. -/
theorem commitsSent_exhibits (o : Nat → Bool) (v : PBFTValidator) (t : Nat) :
    (exhibitsByzantineFailure o v t).2.1.commitsSent = v.commitsSent := by
  rcases exhibits_cases o v t with h | ⟨_, h⟩ <;> rw [h]

/-! ### View-change coordinator -/

/-- Canonical form of a view change started while none is in progress. -/
theorem initiateViewChange_eq (cfg : Config) (o : Nat → Bool) (s : PBFTState)
    (r : String) (h : s.viewChangeInProgress = false) :
    initiateViewChange cfg o s r =
      { s with
        currentView := s.currentView + 1,
        validators := (vcLoop o s.validators s.tick).vs,
        tick := (vcLoop o s.validators s.tick).tick,
        clock := s.clock + cfg.viewChangeTimeout,
        viewChangeInProgress := false,
        viewChanges := s.viewChanges ++
          [⟨s.clock + cfg.viewChangeTimeout, s.currentView, s.currentView + 1, r,
            s.clock + cfg.viewChangeTimeout - s.clock,
            (vcLoop o s.validators s.tick).count * (vcLoop o s.validators s.tick).vs.length,
            ((vcLoop o s.validators s.tick).vs[(s.currentView + 1) %
              (vcLoop o s.validators s.tick).vs.length]?).map PBFTValidator.address⟩] } := by
  rw [initiateViewChange, if_neg (by simp [h])]
  rfl

/-- A view change already in progress is a no-op. -/
theorem initiateViewChange_inProgress (cfg : Config) (o : Nat → Bool) (s : PBFTState)
    (r : String) (h : s.viewChangeInProgress = true) :
    initiateViewChange cfg o s r = s := by
  rw [initiateViewChange, if_pos h]

/-- The view-change coordinator touches neither `f`, the height, the recorded
Byzantine events, phase records or network records, the validator count, nor
any validator's identity, Byzantine configuration, proposal/prepare/commit
counters; the in-progress flag ends as it began and the view never
decreases. -/
theorem initiateViewChange_inv (cfg : Config) (o : Nat → Bool) (s : PBFTState)
    (r : String) :
    (initiateViewChange cfg o s r).f = s.f
    ∧ (initiateViewChange cfg o s r).blockHeight = s.blockHeight
    ∧ (initiateViewChange cfg o s r).byzantineEvents = s.byzantineEvents
    ∧ (initiateViewChange cfg o s r).consensusPhases = s.consensusPhases
    ∧ (initiateViewChange cfg o s r).networkMessages = s.networkMessages
    ∧ (initiateViewChange cfg o s r).viewChangeInProgress = s.viewChangeInProgress
    ∧ (initiateViewChange cfg o s r).validators.length = s.validators.length
    ∧ (initiateViewChange cfg o s r).validators.map byzObs = s.validators.map byzObs
    ∧ (initiateViewChange cfg o s r).validators.map PBFTValidator.address
        = s.validators.map PBFTValidator.address
    ∧ (initiateViewChange cfg o s r).validators.map PBFTValidator.blocksProposed
        = s.validators.map PBFTValidator.blocksProposed
    ∧ (initiateViewChange cfg o s r).validators.map PBFTValidator.preparesSent
        = s.validators.map PBFTValidator.preparesSent
    ∧ (initiateViewChange cfg o s r).validators.map PBFTValidator.commitsSent
        = s.validators.map PBFTValidator.commitsSent
    ∧ s.currentView ≤ (initiateViewChange cfg o s r).currentView := by
  cases h : s.viewChangeInProgress
  · rw [initiateViewChange_eq cfg o s r h]
    refine ⟨rfl, rfl, rfl, rfl, rfl, rfl, ?_, ?_, ?_, ?_, ?_, ?_, ?_⟩
    · exact (loops_length o 0 0 0 0 s.validators 0 s.tick).2.2
    · exact vcLoop_map_eq byzObs (fun v => rfl) byzObs_exhibits o s.validators s.tick
    · exact vcLoop_map_eq PBFTValidator.address (fun v => rfl) address_exhibits o
        s.validators s.tick
    · exact vcLoop_map_eq PBFTValidator.blocksProposed (fun v => rfl) blocksProposed_exhibits
        o s.validators s.tick
    · exact vcLoop_map_eq PBFTValidator.preparesSent (fun v => rfl) preparesSent_exhibits
        o s.validators s.tick
    · exact vcLoop_map_eq PBFTValidator.commitsSent (fun v => rfl) commitsSent_exhibits
        o s.validators s.tick
    · exact Nat.le_succ _
  · rw [initiateViewChange_inProgress cfg o s r h]
    exact ⟨rfl, rfl, rfl, rfl, rfl, h, rfl, rfl, rfl, rfl, rfl, rfl, Nat.le_refl _⟩

/-! ### Phase results -/

/-- The prepare phase returns the configured duration exactly when the
participant count reaches `2f+1`, and otherwise throws the insufficient-
messages error; either way the clock advances by the configured prepare
duration. -/
theorem runPreparePhase_res (cfg : Config) (o : Nat → Bool) (s : PBFTState) :
    (2 * s.f + 1 ≤ (prepOutOf o s).count →
      (runPreparePhase cfg o s).2 = Except.ok cfg.prepareTime)
    ∧ ((prepOutOf o s).count < 2 * s.f + 1 →
      (runPreparePhase cfg o s).2 = Except.error
        ("Insufficient prepare messages: " ++ toString (prepOutOf o s).count ++ "/"
          ++ toString (2 * s.f + 1)))
    ∧ (runPreparePhase cfg o s).1.clock = s.clock + cfg.prepareTime := by
  rw [runPreparePhase]
  dsimp only
  refine ⟨?_, ?_, ?_⟩
  · intro h
    rw [if_neg (by omega)]
    dsimp only
    congr 1
    omega
  · intro h
    rw [if_pos h]
  · split <;> rfl

/-- Same characterization for the commit phase. -/
theorem runCommitPhase_res (cfg : Config) (o : Nat → Bool) (s : PBFTState) :
    (2 * s.f + 1 ≤ (commitOutOf o s).count →
      (runCommitPhase cfg o s).2 = Except.ok cfg.commitTime)
    ∧ ((commitOutOf o s).count < 2 * s.f + 1 →
      (runCommitPhase cfg o s).2 = Except.error
        ("Insufficient commit messages: " ++ toString (commitOutOf o s).count ++ "/"
          ++ toString (2 * s.f + 1)))
    ∧ (runCommitPhase cfg o s).1.clock = s.clock + cfg.commitTime := by
  rw [runCommitPhase]
  dsimp only
  refine ⟨?_, ?_, ?_⟩
  · intro h
    rw [if_neg (by omega)]
    dsimp only
    congr 1
    omega
  · intro h
    rw [if_pos h]
  · split <;> rfl

/-! ### No-fault runs -/

/-- With every draw failing, no validator ever crashes in the prepare loop. -/
theorem prepCrashes_noFault (o : Nat → Bool) (pI : Nat) (ho : ∀ t, o t = false) :
    ∀ (vs : List PBFTValidator) (pos tick : Nat), prepCrashes o pI vs pos tick = 0 := by
  intro vs
  induction vs with
  | nil => intro pos tick; rfl
  | cons v rest ih =>
    intro pos tick
    rw [prepCrashes]
    rcases hx : exhibitsByzantineFailure o v tick with ⟨bf, v1, t1⟩
    have hn : bf = none := by
      have := (exhibits_noFault o v tick (ho tick)).1
      rw [hx] at this
      exact this
    subst hn
    split
    · exact ih (pos + 1) tick
    · exact ih (pos + 1) t1

/-- With every draw failing, no validator ever crashes in the commit loop. -/
theorem commitCrashes_noFault (o : Nat → Bool) (ho : ∀ t, o t = false) :
    ∀ (vs : List PBFTValidator) (tick : Nat), commitCrashes o vs tick = 0 := by
  intro vs
  induction vs with
  | nil => intro tick; rfl
  | cons v rest ih =>
    intro tick
    rw [commitCrashes]
    rcases hx : exhibitsByzantineFailure o v tick with ⟨bf, v1, t1⟩
    have hn : bf = none := by
      have := (exhibits_noFault o v tick (ho tick)).1
      rw [hx] at this
      exact this
    subst hn
    exact ih t1

/-- With no faults, every non-primary validator participates in the prepare
phase. -/
theorem prepOutOf_count_noFault (o : Nat → Bool) (s : PBFTState)
    (ho : ∀ t, o t = false) (hN : 0 < s.validators.length) :
    (prepOutOf o s).count = s.validators.length - 1 := by
  have h1 := prepLoop_count_crashes o (s.currentView % s.validators.length)
    s.blockHeight s.currentView s.clock s.validators 0 s.tick
  have h2 := prepCrashes_noFault o (s.currentView % s.validators.length) ho
    s.validators 0 s.tick
  have h3 : s.currentView % s.validators.length < s.validators.length :=
    Nat.mod_lt _ hN
  rw [if_pos ⟨Nat.zero_le _, by omega⟩] at h1
  rw [prepOutOf]
  omega

/-- With no faults, every validator participates in the commit phase. -/
theorem commitOutOf_count_noFault (o : Nat → Bool) (s : PBFTState)
    (ho : ∀ t, o t = false) : (commitOutOf o s).count = s.validators.length := by
  have h1 := commitLoop_count_crashes o s.blockHeight s.currentView s.clock
    s.validators s.tick
  have h2 := commitCrashes_noFault o ho s.validators s.tick
  rw [commitOutOf]
  omega

/-- A crash of the primary aborts the pre-prepare phase: the only mutations
are the primary's bumped `failures` counter, the draw cursor, and one
recorded `"pre-prepare"` crash event; the phase throws before
`recordProposal`, before any message accounting and before the phase sleep. -/
theorem runPrePreparePhase_crash (cfg : Config) (o : Nat → Bool) (s : PBFTState)
    (p p1 : PBFTValidator) (t1 : Nat)
    (hg : s.validators[s.currentView % s.validators.length]? = some p)
    (hx : exhibitsByzantineFailure o p s.tick = (some BFault.crash, p1, t1)) :
    runPrePreparePhase cfg o s =
      ({ s with
          validators := s.validators.set (s.currentView % s.validators.length) p1,
          tick := t1,
          byzantineEvents := s.byzantineEvents ++
            [mkByzEvent s.clock p1 s.blockHeight s.currentView "pre-prepare" BFault.crash] },
       Except.error "Primary crashed during pre-prepare phase") := by
  rw [runPrePreparePhase, hg]
  dsimp only
  rw [hx]

/-- With no fault for the primary, the pre-prepare phase succeeds, returning
the configured duration and advancing the clock by it. -/
theorem runPrePreparePhase_noFault (cfg : Config) (o : Nat → Bool) (s : PBFTState)
    (p : PBFTValidator) (ho : ∀ t, o t = false)
    (hg : s.validators[s.currentView % s.validators.length]? = some p) :
    (runPrePreparePhase cfg o s).2 = Except.ok cfg.prePrepareTime
    ∧ (runPrePreparePhase cfg o s).1.clock = s.clock + cfg.prePrepareTime := by
  have hx : exhibitsByzantineFailure o p s.tick
      = (none, (exhibitsByzantineFailure o p s.tick).2.1,
         (exhibitsByzantineFailure o p s.tick).2.2) := by
    rw [← (exhibits_noFault o p s.tick (ho s.tick)).1]
  rw [runPrePreparePhase, hg]
  dsimp only
  rw [hx]
  dsimp only
  constructor
  · congr 1
    omega
  · rfl

/-! ### Round-level composition -/

/-- The catch block: when no view change is in flight it runs one view change,
and the failure result is built from the post-view-change state. -/
theorem failRound_spec (cfg : Config) (o : Nat → Bool) (s : PBFTState) (msg : String)
    (h : s.viewChangeInProgress = false) :
    (failRound cfg o s msg).1 = RoundResult.failed s.blockHeight (s.currentView + 1) msg
      (s.clock + cfg.viewChangeTimeout)
    ∧ (failRound cfg o s msg).2 = initiateViewChange cfg o s msg := by
  rw [failRound, if_neg (by simp [h]), initiateViewChange_eq cfg o s msg h]
  exact ⟨rfl, rfl⟩

/-- The catch block preserves the Byzantine configuration and never decreases
the view, the height, or the view-change log. -/
theorem failRound_inv (cfg : Config) (o : Nat → Bool) (s : PBFTState) (msg : String) :
    (failRound cfg o s msg).2.validators.map byzObs = s.validators.map byzObs
    ∧ s.currentView ≤ (failRound cfg o s msg).2.currentView
    ∧ (failRound cfg o s msg).2.blockHeight = s.blockHeight := by
  rw [failRound]
  cases hflag : s.viewChangeInProgress
  · rw [if_neg (by simp)]
    obtain ⟨hf, hbh, -, -, -, -, -, hobs, -, -, -, -, hview⟩ :=
      initiateViewChange_inv cfg o s msg
    exact ⟨hobs, hview, hbh⟩
  · rw [if_pos rfl]
    exact ⟨rfl, Nat.le_refl _, rfl⟩

/-- One consensus round preserves the Byzantine configuration, never
decreases the view, and increments the height by exactly one. -/
theorem runConsensus_inv (cfg : Config) (o : Nat → Bool) (s : PBFTState) :
    (runConsensus cfg o s).2.validators.map byzObs = s.validators.map byzObs
    ∧ s.currentView ≤ (runConsensus cfg o s).2.currentView
    ∧ (runConsensus cfg o s).2.blockHeight = s.blockHeight + 1 := by
  rw [runConsensus]
  rcases hpp : runPrePreparePhase cfg o { s with blockHeight := s.blockHeight + 1 }
    with ⟨s1, r1⟩
  obtain ⟨i1v, -, i1b, -, -, -, -, i1o⟩ :=
    runPrePreparePhase_inv cfg o { s with blockHeight := s.blockHeight + 1 }
  rw [hpp] at i1v i1b i1o
  dsimp only at i1v i1b i1o
  cases r1 with
  | error msg =>
    dsimp only
    obtain ⟨ho, hv, hb⟩ := failRound_inv cfg o s1 msg
    exact ⟨ho.trans i1o, le_of_eq i1v.symm |>.trans hv, hb.trans i1b⟩
  | ok d1 =>
    dsimp only
    rcases hq : runPreparePhase cfg o s1 with ⟨s2, r2⟩
    obtain ⟨i2v, -, i2b, -, -, -, -, i2o⟩ := runPreparePhase_inv cfg o s1
    rw [hq] at i2v i2b i2o
    cases r2 with
    | error msg =>
      dsimp only
      obtain ⟨ho, hv, hb⟩ := failRound_inv cfg o s2 msg
      exact ⟨(ho.trans i2o).trans i1o,
             le_of_eq (i1v.symm.trans i2v.symm) |>.trans hv,
             hb.trans (i2b.trans i1b)⟩
    | ok d2 =>
      dsimp only
      rcases hc : runCommitPhase cfg o s2 with ⟨s3, r3⟩
      obtain ⟨i3v, -, i3b, -, -, -, -, i3o⟩ := runCommitPhase_inv cfg o s2
      rw [hc] at i3v i3b i3o
      cases r3 with
      | error msg =>
        dsimp only
        obtain ⟨ho, hv, hb⟩ := failRound_inv cfg o s3 msg
        exact ⟨((ho.trans i3o).trans i2o).trans i1o,
               le_of_eq ((i1v.symm.trans i2v.symm).trans i3v.symm) |>.trans hv,
               hb.trans (i3b.trans (i2b.trans i1b))⟩
      | ok d3 =>
        dsimp only
        exact ⟨(i3o.trans i2o).trans i1o,
               le_of_eq ((i1v.symm.trans i2v.symm).trans i3v.symm),
               i3b.trans (i2b.trans i1b)⟩

/-- Every failure result of a round started with no view change in flight
reports the height it ran at and the view *after* the triggered view change,
and exactly one `ViewChangeRecord` is appended before the result is built. -/
theorem runConsensus_failed (cfg : Config) (o : Nat → Bool) (s : PBFTState)
    (h : s.viewChangeInProgress = false) :
    ∀ bh vw err ts, (runConsensus cfg o s).1 = RoundResult.failed bh vw err ts →
      bh = s.blockHeight + 1 ∧ vw = s.currentView + 1
      ∧ (runConsensus cfg o s).2.viewChanges.length = s.viewChanges.length + 1 := by
  rw [runConsensus]
  rcases hpp : runPrePreparePhase cfg o { s with blockHeight := s.blockHeight + 1 }
    with ⟨s1, r1⟩
  obtain ⟨i1v, -, i1b, i1p, -, i1c, -, -⟩ :=
    runPrePreparePhase_inv cfg o { s with blockHeight := s.blockHeight + 1 }
  rw [hpp] at i1v i1b i1p i1c
  dsimp only at i1v i1b i1p i1c
  cases r1 with
  | error msg =>
    dsimp only
    obtain ⟨hres, hst⟩ := failRound_spec cfg o s1 msg (i1p.trans h)
    intro bh vw err ts heq
    rw [hres, RoundResult.failed.injEq] at heq
    obtain ⟨hb, hv, -, -⟩ := heq
    refine ⟨hb.symm.trans i1b, hv.symm.trans (by rw [i1v]), ?_⟩
    rw [hst, initiateViewChange_eq cfg o s1 msg (i1p.trans h)]
    simp [i1c]
  | ok d1 =>
    dsimp only
    rcases hq : runPreparePhase cfg o s1 with ⟨s2, r2⟩
    obtain ⟨i2v, -, i2b, i2p, -, i2c, -, -⟩ := runPreparePhase_inv cfg o s1
    rw [hq] at i2v i2b i2p i2c
    dsimp only at i2v i2b i2p i2c
    cases r2 with
    | error msg =>
      dsimp only
      have hpf : s2.viewChangeInProgress = false := i2p.trans (i1p.trans h)
      obtain ⟨hres, hst⟩ := failRound_spec cfg o s2 msg hpf
      intro bh vw err ts heq
      rw [hres, RoundResult.failed.injEq] at heq
      obtain ⟨hb, hv, -, -⟩ := heq
      refine ⟨hb.symm.trans (i2b.trans i1b), hv.symm.trans (by rw [i2v, i1v]), ?_⟩
      rw [hst, initiateViewChange_eq cfg o s2 msg hpf]
      simp [i2c, i1c]
    | ok d2 =>
      dsimp only
      rcases hc : runCommitPhase cfg o s2 with ⟨s3, r3⟩
      obtain ⟨i3v, -, i3b, i3p, -, i3c, -, -⟩ := runCommitPhase_inv cfg o s2
      rw [hc] at i3v i3b i3p i3c
      dsimp only at i3v i3b i3p i3c
      cases r3 with
      | error msg =>
        dsimp only
        have hpf : s3.viewChangeInProgress = false := i3p.trans (i2p.trans (i1p.trans h))
        obtain ⟨hres, hst⟩ := failRound_spec cfg o s3 msg hpf
        intro bh vw err ts heq
        rw [hres, RoundResult.failed.injEq] at heq
        obtain ⟨hb, hv, -, -⟩ := heq
        refine ⟨hb.symm.trans (i3b.trans (i2b.trans i1b)),
                hv.symm.trans (by rw [i3v, i2v, i1v]), ?_⟩
        rw [hst, initiateViewChange_eq cfg o s3 msg hpf]
        simp [i3c, i2c, i1c]
      | ok d3 =>
        dsimp only
        intro bh vw err ts heq
        simp at heq

/-- A whole run (any number of driver-submitted work items) preserves the
Byzantine configuration and never decreases the view. -/
theorem runRounds_inv (cfg : Config) (o : Nat → Bool) :
    ∀ (n : Nat) (s : PBFTState),
      (runRounds cfg o n s).validators.map byzObs = s.validators.map byzObs
      ∧ s.currentView ≤ (runRounds cfg o n s).currentView := by
  intro n
  induction n with
  | zero => intro s; exact ⟨rfl, Nat.le_refl _⟩
  | succ m ih =>
    intro s
    rw [runRounds]
    obtain ⟨hobs, hv, -⟩ := runConsensus_inv cfg o s
    obtain ⟨iho, ihv⟩ := ih (runConsensus cfg o s).2
    exact ⟨iho.trans hobs, hv.trans ihv⟩

/-- The prepare loop skips the primary: the element at the primary's position
is returned untouched. -/
theorem prepLoop_get_primary (o : Nat → Bool) (pI bh vw clk : Nat) :
    ∀ (vs : List PBFTValidator) (pos tick : Nat), pos ≤ pI →
      (prepLoop o pI bh vw clk vs pos tick).vs[pI - pos]? = vs[pI - pos]? := by
  intro vs
  induction vs with
  | nil => intro pos tick _; rfl
  | cons v rest ih =>
    intro pos tick hle
    rw [prepLoop]
    by_cases hp : pos = pI
    · rw [if_pos hp]
      dsimp only
      have h0 : pI - pos = 0 := by omega
      rw [h0]
      simp
    · rw [if_neg hp]
      have hidx : pI - pos = (pI - (pos + 1)) + 1 := by omega
      rcases hx : exhibitsByzantineFailure o v tick with ⟨bf, v1, t1⟩
      rcases bf with _ | k
      · dsimp only
        rw [hidx]
        simp only [List.getElem?_cons_succ]
        exact ih (pos + 1) t1 (by omega)
      · cases k <;>
          (dsimp only
           rw [hidx]
           simp only [List.getElem?_cons_succ]
           exact ih (pos + 1) t1 (by omega))

/-- With all fault probabilities zero and a quorum-compatible configuration,
a round commits with total latency exactly the sum of the three configured
phase durations. -/
theorem runConsensus_noFault (cfg : Config) (o : Nat → Bool) (s : PBFTState)
    (ho : ∀ t, o t = false) (hq : 2 * s.f + 2 ≤ s.validators.length) :
    (runConsensus cfg o s).1 = RoundResult.committed (s.blockHeight + 1) s.currentView
      ((getPrimary s).map PBFTValidator.address) cfg.prePrepareTime cfg.prepareTime
      cfg.commitTime (cfg.prePrepareTime + cfg.prepareTime + cfg.commitTime)
      (s.clock + cfg.prePrepareTime + cfg.prepareTime + cfg.commitTime) := by
  have hN : 0 < s.validators.length := by omega
  rw [runConsensus]
  rcases hpp : runPrePreparePhase cfg o { s with blockHeight := s.blockHeight + 1 }
    with ⟨s1, r1⟩
  obtain ⟨i1v, i1f, i1b, -, i1l, -, i1a, -⟩ :=
    runPrePreparePhase_inv cfg o { s with blockHeight := s.blockHeight + 1 }
  rw [hpp] at i1v i1f i1b i1l i1a
  dsimp only at i1v i1f i1b i1l i1a
  obtain ⟨p, hg⟩ : ∃ p, s.validators[s.currentView % s.validators.length]? = some p :=
    ⟨_, List.getElem?_eq_getElem (Nat.mod_lt _ hN)⟩
  obtain ⟨h1r, h1c⟩ := runPrePreparePhase_noFault cfg o
    { s with blockHeight := s.blockHeight + 1 } p ho hg
  rw [hpp] at h1r h1c
  dsimp only at h1r h1c
  subst h1r
  dsimp only
  rcases hqq : runPreparePhase cfg o s1 with ⟨s2, r2⟩
  obtain ⟨i2v, i2f, i2b, -, i2l, -, i2a, -⟩ := runPreparePhase_inv cfg o s1
  rw [hqq] at i2v i2f i2b i2l i2a
  dsimp only at i2v i2f i2b i2l i2a
  have hcnt1 : (prepOutOf o s1).count = s1.validators.length - 1 :=
    prepOutOf_count_noFault o s1 ho (by omega)
  obtain ⟨h2r, -, h2c⟩ := runPreparePhase_res cfg o s1
  have h2ok := h2r (by rw [hcnt1, i1f, i1l]; omega)
  rw [hqq] at h2ok h2c
  dsimp only at h2ok h2c
  subst h2ok
  dsimp only
  rcases hcc : runCommitPhase cfg o s2 with ⟨s3, r3⟩
  obtain ⟨i3v, i3f, i3b, -, i3l, -, i3a, -⟩ := runCommitPhase_inv cfg o s2
  rw [hcc] at i3v i3f i3b i3l i3a
  dsimp only at i3v i3f i3b i3l i3a
  have hcnt2 : (commitOutOf o s2).count = s2.validators.length :=
    commitOutOf_count_noFault o s2 ho
  obtain ⟨h3r, -, h3c⟩ := runCommitPhase_res cfg o s2
  have h3ok := h3r (by rw [hcnt2, i2f, i1f, i2l, i1l]; omega)
  rw [hcc] at h3ok h3c
  dsimp only at h3ok h3c
  subst h3ok
  dsimp only
  have hview : s3.currentView = s.currentView := by rw [i3v, i2v, i1v]
  have hlen : s3.validators.length = s.validators.length := by rw [i3l, i2l, i1l]
  have hbh : s3.blockHeight = s.blockHeight + 1 := by rw [i3b, i2b, i1b]
  have hclock : s3.clock = s.clock + cfg.prePrepareTime + cfg.prepareTime
      + cfg.commitTime := by
    rw [h3c, h2c, h1c]
  have hmapaddr : s3.validators.map PBFTValidator.address
      = s.validators.map PBFTValidator.address := by
    rw [i3a, i2a, i1a]
  have hprimary : (getPrimary s3).map PBFTValidator.address
      = (getPrimary s).map PBFTValidator.address := by
    rw [getPrimary, getPrimary, hview, hlen]
    exact get?_map_eq PBFTValidator.address s.validators s3.validators hmapaddr _
  rw [RoundResult.committed.injEq]
  exact ⟨hbh, hview, hprimary, rfl, rfl, rfl, rfl, hclock⟩

/-- The catch block always produces a failure result. -/
theorem failRound_isFailed (cfg : Config) (o : Nat → Bool) (s : PBFTState) (msg : String) :
    ∃ bh vw e ts, (failRound cfg o s msg).1 = RoundResult.failed bh vw e ts := by
  rw [failRound]
  exact ⟨_, _, _, _, rfl⟩

/-- A primary crash during pre-prepare aborts the round at once: the result is
the crash failure built after the view change, the proposal/prepare/commit
counters of every validator are untouched (the prepare and commit phases never
ran, no phase record was appended), exactly one pre-prepare crash event is
recorded and exactly one view change happens before the result is returned. -/
theorem runConsensus_primary_crash (cfg : Config) (o : Nat → Bool) (s : PBFTState)
    (p : PBFTValidator)
    (hvc : s.viewChangeInProgress = false)
    (hg : s.validators[s.currentView % s.validators.length]? = some p)
    (hbyz : p.isByzantine = true)
    (hty : p.byzantineType = some BFault.crash)
    (hdraw : o s.tick = true) :
    (runConsensus cfg o s).1 = RoundResult.failed (s.blockHeight + 1) (s.currentView + 1)
      "Primary crashed during pre-prepare phase" (s.clock + cfg.viewChangeTimeout)
    ∧ (runConsensus cfg o s).2.validators.map PBFTValidator.blocksProposed
        = s.validators.map PBFTValidator.blocksProposed
    ∧ (runConsensus cfg o s).2.validators.map PBFTValidator.preparesSent
        = s.validators.map PBFTValidator.preparesSent
    ∧ (runConsensus cfg o s).2.validators.map PBFTValidator.commitsSent
        = s.validators.map PBFTValidator.commitsSent
    ∧ (runConsensus cfg o s).2.consensusPhases = s.consensusPhases
    ∧ (runConsensus cfg o s).2.byzantineEvents = s.byzantineEvents ++
        [⟨s.clock, p.address, p.index, s.blockHeight + 1, s.currentView, "pre-prepare",
          BFault.crash⟩]
    ∧ (runConsensus cfg o s).2.viewChanges.length = s.viewChanges.length + 1 := by
  have hx : exhibitsByzantineFailure o p s.tick
      = (some BFault.crash, { p with failures := p.failures + 1 }, s.tick + 1) := by
    rw [exhibitsByzantineFailure, if_neg (by simp [hbyz]), if_pos hdraw, hty]
  have hpre := runPrePreparePhase_crash cfg o { s with blockHeight := s.blockHeight + 1 }
    p { p with failures := p.failures + 1 } (s.tick + 1) hg hx
  rw [runConsensus, hpre]
  dsimp only
  set se : PBFTState :=
    { s with
        blockHeight := s.blockHeight + 1,
        validators := s.validators.set (s.currentView % s.validators.length)
          { p with failures := p.failures + 1 },
        tick := s.tick + 1,
        byzantineEvents := s.byzantineEvents ++
          [mkByzEvent s.clock { p with failures := p.failures + 1 } (s.blockHeight + 1)
            s.currentView "pre-prepare" BFault.crash] } with hse
  obtain ⟨hres, hst⟩ := failRound_spec cfg o se "Primary crashed during pre-prepare phase" hvc
  obtain ⟨-, -, hbe, hcp, -, -, -, -, -, hbp, hps, hcs, -⟩ :=
    initiateViewChange_inv cfg o se "Primary crashed during pre-prepare phase"
  rw [← hst] at hbe hcp hbp hps hcs
  have hmapset : ∀ (g : PBFTValidator → Nat), g { p with failures := p.failures + 1 } = g p →
      (s.validators.set (s.currentView % s.validators.length)
        { p with failures := p.failures + 1 }).map g = s.validators.map g := by
    intro g hgp
    exact map_set_eq g s.validators _ _ p hg hgp
  refine ⟨hres, ?_, ?_, ?_, hcp, ?_, ?_⟩
  · rw [hbp]; exact hmapset PBFTValidator.blocksProposed rfl
  · rw [hps]; exact hmapset PBFTValidator.preparesSent rfl
  · rw [hcs]; exact hmapset PBFTValidator.commitsSent rfl
  · rw [hbe]; rfl
  · rw [hst, initiateViewChange_eq cfg o se "Primary crashed during pre-prepare phase" hvc]
    simp

/-! ### Excess-crash safety -/

/-- The state after the pre-prepare phase of a round run from `s`. -/
def afterPrePrepare (cfg : Config) (o : Nat → Bool) (s : PBFTState) : PBFTState :=
  (runPrePreparePhase cfg o { s with blockHeight := s.blockHeight + 1 }).1

/-- The state after the prepare phase of a round run from `s`. -/
def afterPrepare (cfg : Config) (o : Nat → Bool) (s : PBFTState) : PBFTState :=
  (runPreparePhase cfg o (afterPrePrepare cfg o s)).1

/-- More crashes than `N - (2f+1)` in the prepare loop force the participant
count below quorum, so the phase throws. -/
theorem runPreparePhase_excess (cfg : Config) (o : Nat → Bool) (s : PBFTState)
    (hN : 0 < s.validators.length)
    (hc : s.validators.length - (2 * s.f + 1) < prepCrashesOf o s) :
    quorumAgreed (prepOutOf o s).count s.f = false
    ∧ (runPreparePhase cfg o s).2 = Except.error
        ("Insufficient prepare messages: " ++ toString (prepOutOf o s).count ++ "/"
          ++ toString (2 * s.f + 1)) := by
  have h1 := prepLoop_count_crashes o (s.currentView % s.validators.length)
    s.blockHeight s.currentView s.clock s.validators 0 s.tick
  rw [if_pos ⟨Nat.zero_le _, by have := Nat.mod_lt s.currentView hN; omega⟩] at h1
  rw [prepCrashesOf] at hc
  have hlt : (prepOutOf o s).count < 2 * s.f + 1 := by
    rw [prepOutOf]
    omega
  exact ⟨by simp [quorumAgreed, hlt], (runPreparePhase_res cfg o s).2.1 hlt⟩

/-- More crashes than `N - (2f+1)` in the commit loop force the participant
count below quorum, so the phase throws. -/
theorem runCommitPhase_excess (cfg : Config) (o : Nat → Bool) (s : PBFTState)
    (hc : s.validators.length - (2 * s.f + 1) < commitCrashesOf o s) :
    quorumAgreed (commitOutOf o s).count s.f = false
    ∧ (runCommitPhase cfg o s).2 = Except.error
        ("Insufficient commit messages: " ++ toString (commitOutOf o s).count ++ "/"
          ++ toString (2 * s.f + 1)) := by
  have h1 := commitLoop_count_crashes o s.blockHeight s.currentView s.clock
    s.validators s.tick
  rw [commitCrashesOf] at hc
  have hlt : (commitOutOf o s).count < 2 * s.f + 1 := by
    rw [commitOutOf]
    omega
  exact ⟨by simp [quorumAgreed, hlt], (runCommitPhase_res cfg o s).2.1 hlt⟩

/-- Round-level safety: a round whose prepare (resp. commit) phase sees more
than `N - (2f+1)` crashing validators ends in a failure, never `COMMITTED`. -/
theorem runConsensus_failed_of_excess (cfg : Config) (o : Nat → Bool) (s : PBFTState)
    (hN : 0 < s.validators.length) :
    ((afterPrePrepare cfg o s).validators.length - (2 * (afterPrePrepare cfg o s).f + 1)
        < prepCrashesOf o (afterPrePrepare cfg o s) →
      ∃ bh vw e ts, (runConsensus cfg o s).1 = RoundResult.failed bh vw e ts)
    ∧ ((afterPrepare cfg o s).validators.length - (2 * (afterPrepare cfg o s).f + 1)
        < commitCrashesOf o (afterPrepare cfg o s) →
      ∃ bh vw e ts, (runConsensus cfg o s).1 = RoundResult.failed bh vw e ts) := by
  rw [runConsensus]
  rcases hpp : runPrePreparePhase cfg o { s with blockHeight := s.blockHeight + 1 }
    with ⟨s1, r1⟩
  have ha1 : afterPrePrepare cfg o s = s1 := by rw [afterPrePrepare, hpp]
  obtain ⟨-, -, -, -, i1l, -, -, -⟩ :=
    runPrePreparePhase_inv cfg o { s with blockHeight := s.blockHeight + 1 }
  rw [hpp] at i1l
  dsimp only at i1l
  cases r1 with
  | error msg =>
    dsimp only
    exact ⟨fun _ => failRound_isFailed cfg o s1 msg, fun _ => failRound_isFailed cfg o s1 msg⟩
  | ok d1 =>
    dsimp only
    rcases hqq : runPreparePhase cfg o s1 with ⟨s2, r2⟩
    have ha2 : afterPrepare cfg o s = s2 := by rw [afterPrepare, ha1, hqq]
    constructor
    · intro hc
      rw [ha1] at hc
      have herr := (runPreparePhase_excess cfg o s1 (by omega) hc).2
      rw [hqq] at herr
      dsimp only at herr
      subst herr
      dsimp only
      exact failRound_isFailed cfg o s2 _
    · intro hc
      rw [ha2] at hc
      cases r2 with
      | error msg =>
        dsimp only
        exact failRound_isFailed cfg o s2 msg
      | ok d2 =>
        dsimp only
        rcases hcc : runCommitPhase cfg o s2 with ⟨s3, r3⟩
        have herr := (runCommitPhase_excess cfg o s2 hc).2
        rw [hcc] at herr
        dsimp only at herr
        subst herr
        dsimp only
        exact failRound_isFailed cfg o s3 _

/-! ### Quorum characterizations and event accounting -/

/-- The evaluator agrees exactly on counts reaching `2f+1`. -/
theorem quorumAgreed_iff (c f : Nat) : quorumAgreed c f = true ↔ 2 * f + 1 ≤ c := by
  rw [quorumAgreed]
  simp [Nat.not_lt]

/-- The evaluator rejects exactly the counts below `2f+1`. -/
theorem quorumAgreed_false_iff (c f : Nat) : quorumAgreed c f = false ↔ c < 2 * f + 1 := by
  rw [quorumAgreed]
  simp

/-- The prepare phase succeeds iff the evaluator agrees on its count. -/
theorem runPreparePhase_ok_iff (cfg : Config) (o : Nat → Bool) (s : PBFTState) :
    (runPreparePhase cfg o s).2 = Except.ok cfg.prepareTime ↔
      quorumAgreed (prepOutOf o s).count s.f = true := by
  constructor
  · intro h
    rw [quorumAgreed_iff]
    by_contra hq
    have hlt : (prepOutOf o s).count < 2 * s.f + 1 := by omega
    have he := (runPreparePhase_res cfg o s).2.1 hlt
    rw [he] at h
    exact Except.noConfusion h
  · intro hq
    exact (runPreparePhase_res cfg o s).1 ((quorumAgreed_iff _ _).1 hq)

/-- The commit phase succeeds iff the evaluator agrees on its count. -/
theorem runCommitPhase_ok_iff (cfg : Config) (o : Nat → Bool) (s : PBFTState) :
    (runCommitPhase cfg o s).2 = Except.ok cfg.commitTime ↔
      quorumAgreed (commitOutOf o s).count s.f = true := by
  constructor
  · intro h
    rw [quorumAgreed_iff]
    by_contra hq
    have hlt : (commitOutOf o s).count < 2 * s.f + 1 := by omega
    have he := (runCommitPhase_res cfg o s).2.1 hlt
    rw [he] at h
    exact Except.noConfusion h
  · intro hq
    exact (runCommitPhase_res cfg o s).1 ((quorumAgreed_iff _ _).1 hq)

/-- The prepare phase counts at most the `N - 1` non-primary validators. -/
theorem prepOutOf_count_le (o : Nat → Bool) (s : PBFTState)
    (hN : 0 < s.validators.length) :
    (prepOutOf o s).count + 1 ≤ s.validators.length := by
  have h1 := prepLoop_count_crashes o (s.currentView % s.validators.length)
    s.blockHeight s.currentView s.clock s.validators 0 s.tick
  rw [if_pos ⟨Nat.zero_le _, by have := Nat.mod_lt s.currentView hN; omega⟩] at h1
  rw [prepOutOf]
  omega

/-- The prepare phase appends exactly one Byzantine event per triggered
fault. -/
theorem runPreparePhase_events (cfg : Config) (o : Nat → Bool) (s : PBFTState) :
    (runPreparePhase cfg o s).1.byzantineEvents.length
      = s.byzantineEvents.length + (prepOutOf o s).byz := by
  have h : (prepOutOf o s).events.length = (prepOutOf o s).byz :=
    (prepLoop_events o (s.currentView % s.validators.length) s.blockHeight s.currentView
      s.clock s.validators 0 s.tick).1
  rw [runPreparePhase]
  dsimp only
  split <;>
    (dsimp only
     rw [List.length_append, h])

/-- The commit phase appends exactly one Byzantine event per triggered
fault. -/
theorem runCommitPhase_events (cfg : Config) (o : Nat → Bool) (s : PBFTState) :
    (runCommitPhase cfg o s).1.byzantineEvents.length
      = s.byzantineEvents.length + (commitOutOf o s).byz := by
  have h : (commitOutOf o s).events.length = (commitOutOf o s).byz :=
    (commitLoop_events o s.blockHeight s.currentView s.clock s.validators s.tick).1
  rw [runCommitPhase]
  dsimp only
  split <;>
    (dsimp only
     rw [List.length_append, h])

/-- The pre-prepare phase appends exactly one Byzantine event iff the primary
triggers a fault. -/
theorem runPrePreparePhase_events (cfg : Config) (o : Nat → Bool) (s : PBFTState) :
    (runPrePreparePhase cfg o s).1.byzantineEvents.length
      = s.byzantineEvents.length + (if (prePrepareFaultOf o s).isSome then 1 else 0) := by
  rw [runPrePreparePhase, prePrepareFaultOf, getPrimary]
  rcases hg : s.validators[s.currentView % s.validators.length]? with _ | p
  · simp
  · dsimp only
    rcases hx : exhibitsByzantineFailure o p s.tick with ⟨bf, p1, t1⟩
    rcases bf with _ | k
    · simp
    · cases k
      · simp
      · dsimp only
        split <;> simp
      · dsimp only
        split <;> simp

/-! ### The claims -/

/-- C1: for every participant count `c` and fault bound `f ≥ 0` the quorum
evaluator yields Agreed iff `c ≥ 2f+1`; the prepare and commit phases of
`runConsensus` succeed exactly when the evaluator agrees on their
participant count, and when the count is strictly below `2f+1` they throw the
`"Insufficient ... messages: X/required"` error that fails the round. -/
theorem claim1_quorum_evaluate_iff :
    (∀ c f : Nat, quorumAgreed c f = true ↔ c ≥ 2 * f + 1)
    ∧ (∀ (cfg : Config) (o : Nat → Bool) (s : PBFTState),
        ((runPreparePhase cfg o s).2 = Except.ok cfg.prepareTime ↔
          quorumAgreed (prepOutOf o s).count s.f = true)
        ∧ ((prepOutOf o s).count < 2 * s.f + 1 →
          (runPreparePhase cfg o s).2 = Except.error
            ("Insufficient prepare messages: " ++ toString (prepOutOf o s).count ++ "/"
              ++ toString (2 * s.f + 1))))
    ∧ (∀ (cfg : Config) (o : Nat → Bool) (s : PBFTState),
        ((runCommitPhase cfg o s).2 = Except.ok cfg.commitTime ↔
          quorumAgreed (commitOutOf o s).count s.f = true)
        ∧ ((commitOutOf o s).count < 2 * s.f + 1 →
          (runCommitPhase cfg o s).2 = Except.error
            ("Insufficient commit messages: " ++ toString (commitOutOf o s).count ++ "/"
              ++ toString (2 * s.f + 1)))) :=
  ⟨fun c f => quorumAgreed_iff c f,
   fun cfg o s => ⟨runPreparePhase_ok_iff cfg o s, (runPreparePhase_res cfg o s).2.1⟩,
   fun cfg o s => ⟨runCommitPhase_ok_iff cfg o s, (runCommitPhase_res cfg o s).2.1⟩⟩

theorem claim1_witness :
    (runPreparePhase defaultConfig oracleTrue stC).2 = Except.error
      ("Insufficient prepare messages: " ++ toString (prepOutOf oracleTrue stC).count
        ++ "/" ++ toString (2 * stC.f + 1)) :=
  (claim1_quorum_evaluate_iff.2.1 defaultConfig oracleTrue stC).2 (by decide)

/-- C2: the prepare loop skips the primary — its entry is untouched and the
required threshold `2f+1` is checked against the count of at most `N - 1`
non-primary participants; concretely with N=4, f=1 and all three non-primary
validators crashing, the count is 0, the requirement 3, and the round fails
with `"Insufficient prepare messages: 0/3"`. -/
theorem claim2_prepare_skips_primary :
    (∀ (o : Nat → Bool) (s : PBFTState), 0 < s.validators.length →
      (prepOutOf o s).vs[s.currentView % s.validators.length]?
          = s.validators[s.currentView % s.validators.length]?
      ∧ (prepOutOf o s).count + 1 ≤ s.validators.length)
    ∧ (prepOutOf oracleTrue stC).count = 0
    ∧ (runConsensus defaultConfig oracleTrue stC).1 =
        RoundResult.failed 1 1 "Insufficient prepare messages: 0/3" 2500 := by
  refine ⟨?_, by decide, by decide⟩
  intro o s hN
  constructor
  · have := prepLoop_get_primary o (s.currentView % s.validators.length) s.blockHeight
      s.currentView s.clock s.validators 0 s.tick (Nat.zero_le _)
    simpa [prepOutOf] using this
  · exact prepOutOf_count_le o s hN

theorem claim2_witness :
    (prepOutOf oracleTrue stB).vs[stB.currentView % stB.validators.length]?
        = stB.validators[stB.currentView % stB.validators.length]?
    ∧ (prepOutOf oracleTrue stB).count + 1 ≤ stB.validators.length :=
  claim2_prepare_skips_primary.1 oracleTrue stB (by decide)

/-- C3: whenever the fault model yields Crash for the primary in pre-prepare,
the round aborts at once — the result (built after the view change) is the
`"Primary crashed during pre-prepare phase"` failure, no validator's
proposal, prepare or commit counter moves (the later phases never ran and not
even a pre-prepare phase record was appended), exactly one pre-prepare crash
event is recorded, and exactly one view change completes before the result is
returned. -/
theorem claim3_primary_crash_aborts (cfg : Config) (o : Nat → Bool) (s : PBFTState)
    (p : PBFTValidator)
    (hvc : s.viewChangeInProgress = false)
    (hg : s.validators[s.currentView % s.validators.length]? = some p)
    (hbyz : p.isByzantine = true)
    (hty : p.byzantineType = some BFault.crash)
    (hdraw : o s.tick = true) :
    (runConsensus cfg o s).1 = RoundResult.failed (s.blockHeight + 1) (s.currentView + 1)
      "Primary crashed during pre-prepare phase" (s.clock + cfg.viewChangeTimeout)
    ∧ (runConsensus cfg o s).2.validators.map PBFTValidator.blocksProposed
        = s.validators.map PBFTValidator.blocksProposed
    ∧ (runConsensus cfg o s).2.validators.map PBFTValidator.preparesSent
        = s.validators.map PBFTValidator.preparesSent
    ∧ (runConsensus cfg o s).2.validators.map PBFTValidator.commitsSent
        = s.validators.map PBFTValidator.commitsSent
    ∧ (runConsensus cfg o s).2.consensusPhases = s.consensusPhases
    ∧ (runConsensus cfg o s).2.byzantineEvents = s.byzantineEvents ++
        [⟨s.clock, p.address, p.index, s.blockHeight + 1, s.currentView, "pre-prepare",
          BFault.crash⟩]
    ∧ (runConsensus cfg o s).2.viewChanges.length = s.viewChanges.length + 1 :=
  runConsensus_primary_crash cfg o s p hvc hg hbyz hty hdraw

theorem claim3_witness :
    (runConsensus defaultConfig oracleTrue stB).1 = RoundResult.failed
      (stB.blockHeight + 1) (stB.currentView + 1)
      "Primary crashed during pre-prepare phase"
      (stB.clock + defaultConfig.viewChangeTimeout)
    ∧ (runConsensus defaultConfig oracleTrue stB).2.validators.map
        PBFTValidator.blocksProposed = stB.validators.map PBFTValidator.blocksProposed
    ∧ (runConsensus defaultConfig oracleTrue stB).2.validators.map
        PBFTValidator.preparesSent = stB.validators.map PBFTValidator.preparesSent
    ∧ (runConsensus defaultConfig oracleTrue stB).2.validators.map
        PBFTValidator.commitsSent = stB.validators.map PBFTValidator.commitsSent
    ∧ (runConsensus defaultConfig oracleTrue stB).2.consensusPhases = stB.consensusPhases
    ∧ (runConsensus defaultConfig oracleTrue stB).2.byzantineEvents = stB.byzantineEvents
        ++ [⟨stB.clock, 10, 0, stB.blockHeight + 1, stB.currentView, "pre-prepare",
            BFault.crash⟩]
    ∧ (runConsensus defaultConfig oracleTrue stB).2.viewChanges.length
        = stB.viewChanges.length + 1 :=
  claim3_primary_crash_aborts defaultConfig oracleTrue stB
    (mkValidator 10 0 true (some BFault.crash)) rfl (by decide) (by decide) (by decide)
    (by decide)

/-- C4: a view change started while none is in flight increments the view by
exactly one; over any whole run the view never decreases; and the primary is
always `validators[currentView mod N]`. -/
theorem claim4_view_monotone :
    (∀ (cfg : Config) (o : Nat → Bool) (s : PBFTState) (r : String),
      s.viewChangeInProgress = false →
        (initiateViewChange cfg o s r).currentView = s.currentView + 1)
    ∧ (∀ (cfg : Config) (o : Nat → Bool) (n : Nat) (s : PBFTState),
        s.currentView ≤ (runRounds cfg o n s).currentView)
    ∧ (∀ s : PBFTState, getPrimary s
        = s.validators[s.currentView % s.validators.length]?) := by
  refine ⟨?_, ?_, fun s => rfl⟩
  · intro cfg o s r h
    rw [initiateViewChange_eq cfg o s r h]
  · intro cfg o n s
    exact (runRounds_inv cfg o n s).2

theorem claim4_witness :
    (initiateViewChange defaultConfig oracleTrue stB "r").currentView
      = stB.currentView + 1 :=
  claim4_view_monotone.1 defaultConfig oracleTrue stB "r" rfl

/-- C5: in the prepare or commit phase, more crashing validators than
`N - (2f+1)` force the quorum evaluation to NotAgreed and the phase to throw;
consequently a round whose prepare or commit phase sees that many crashes can
only end in a failure, never `COMMITTED`. -/
theorem claim5_safety_excess_crashes :
    (∀ (cfg : Config) (o : Nat → Bool) (s : PBFTState), 0 < s.validators.length →
      s.validators.length - (2 * s.f + 1) < prepCrashesOf o s →
        quorumAgreed (prepOutOf o s).count s.f = false
        ∧ (runPreparePhase cfg o s).2 = Except.error
            ("Insufficient prepare messages: " ++ toString (prepOutOf o s).count ++ "/"
              ++ toString (2 * s.f + 1)))
    ∧ (∀ (cfg : Config) (o : Nat → Bool) (s : PBFTState),
        s.validators.length - (2 * s.f + 1) < commitCrashesOf o s →
          quorumAgreed (commitOutOf o s).count s.f = false
          ∧ (runCommitPhase cfg o s).2 = Except.error
              ("Insufficient commit messages: " ++ toString (commitOutOf o s).count ++ "/"
                ++ toString (2 * s.f + 1)))
    ∧ (∀ (cfg : Config) (o : Nat → Bool) (s : PBFTState), 0 < s.validators.length →
        ((afterPrePrepare cfg o s).validators.length
            - (2 * (afterPrePrepare cfg o s).f + 1)
            < prepCrashesOf o (afterPrePrepare cfg o s) →
          ∃ bh vw e ts, (runConsensus cfg o s).1 = RoundResult.failed bh vw e ts)
        ∧ ((afterPrepare cfg o s).validators.length - (2 * (afterPrepare cfg o s).f + 1)
            < commitCrashesOf o (afterPrepare cfg o s) →
          ∃ bh vw e ts, (runConsensus cfg o s).1 = RoundResult.failed bh vw e ts)) :=
  ⟨runPreparePhase_excess, runCommitPhase_excess, runConsensus_failed_of_excess⟩

theorem claim5_witness :
    quorumAgreed (prepOutOf oracleTrue stC).count stC.f = false
    ∧ (runPreparePhase defaultConfig oracleTrue stC).2 = Except.error
        ("Insufficient prepare messages: " ++ toString (prepOutOf oracleTrue stC).count
          ++ "/" ++ toString (2 * stC.f + 1)) :=
  claim5_safety_excess_crashes.1 defaultConfig oracleTrue stC (by decide) (by decide)

/-- C6: with every fault draw failing — in particular with all fault
probabilities 0, since `Math.random() < 0` is always false — a round commits
with total time exactly the sum of the three configured phase durations;
concretely with durations {200,300,300} the committed round reports
`totalTime = 800`. -/
theorem claim6_liveness_no_faults :
    (∀ (cfg : Config) (o : Nat → Bool) (s : PBFTState),
      (∀ t, o t = false) → 2 * s.f + 2 ≤ s.validators.length →
        (runConsensus cfg o s).1 = RoundResult.committed (s.blockHeight + 1) s.currentView
          ((getPrimary s).map PBFTValidator.address) cfg.prePrepareTime cfg.prepareTime
          cfg.commitTime (cfg.prePrepareTime + cfg.prepareTime + cfg.commitTime)
          (s.clock + cfg.prePrepareTime + cfg.prepareTime + cfg.commitTime))
    ∧ (∀ r : ℚ, 0 ≤ r → failsNowOf r 0 = false)
    ∧ (runConsensus defaultConfig oracleFalse stA).1 =
        RoundResult.committed 1 0 (some 10) 200 300 300 800 800 := by
  refine ⟨runConsensus_noFault, ?_, by decide⟩
  intro r hr
  rw [failsNowOf, decide_eq_false_iff_not]
  exact not_lt.mpr hr

theorem claim6_witness :
    (runConsensus defaultConfig oracleFalse stA).1 = RoundResult.committed
      (stA.blockHeight + 1) stA.currentView
      ((getPrimary stA).map PBFTValidator.address) defaultConfig.prePrepareTime
      defaultConfig.prepareTime defaultConfig.commitTime
      (defaultConfig.prePrepareTime + defaultConfig.prepareTime + defaultConfig.commitTime)
      (stA.clock + defaultConfig.prePrepareTime + defaultConfig.prepareTime
        + defaultConfig.commitTime) :=
  claim6_liveness_no_faults.1 defaultConfig oracleFalse stA (fun t => rfl) (by decide)

/-- C7 counterexample: during the view-change sub-protocol a fault is
triggered — a Byzantine validator's `failures` counter moves — yet the
Byzantine-event log is left untouched, so not every triggered fault appends a
`ByzantineEvent`. -/
theorem claim7_counterexample :
    (initiateViewChange defaultConfig oracleTrue stB "reason").validators.map
        PBFTValidator.failures
      ≠ stB.validators.map PBFTValidator.failures
    ∧ (initiateViewChange defaultConfig oracleTrue stB "reason").byzantineEvents
      = stB.byzantineEvents := by
  decide

/-- C7 (amended): every triggered fault in the pre-prepare, prepare and
commit phases appends exactly one `ByzantineEvent`, while faults triggered
during the view-change sub-protocol append none. -/
theorem claim7_amended_fault_events :
    (∀ (cfg : Config) (o : Nat → Bool) (s : PBFTState),
      (runPrePreparePhase cfg o s).1.byzantineEvents.length
        = s.byzantineEvents.length + (if (prePrepareFaultOf o s).isSome then 1 else 0))
    ∧ (∀ (cfg : Config) (o : Nat → Bool) (s : PBFTState),
        (runPreparePhase cfg o s).1.byzantineEvents.length
          = s.byzantineEvents.length + (prepOutOf o s).byz)
    ∧ (∀ (cfg : Config) (o : Nat → Bool) (s : PBFTState),
        (runCommitPhase cfg o s).1.byzantineEvents.length
          = s.byzantineEvents.length + (commitOutOf o s).byz)
    ∧ (∀ (cfg : Config) (o : Nat → Bool) (s : PBFTState) (r : String),
        (initiateViewChange cfg o s r).byzantineEvents = s.byzantineEvents) :=
  ⟨runPrePreparePhase_events, runPreparePhase_events, runCommitPhase_events,
   fun cfg o s r => (initiateViewChange_inv cfg o s r).2.2.1⟩

/-- C8: when the view-change acknowledgement count misses `2f+1` the
coordinator still completes: the view stays incremented, the in-progress flag
is cleared, and one `ViewChangeRecord` with message count
`ackCount × N` is appended. -/
theorem claim8_view_change_soft_fail (cfg : Config) (o : Nat → Bool) (s : PBFTState)
    (r : String) (h : s.viewChangeInProgress = false)
    (hq : (vcLoop o s.validators s.tick).count < 2 * s.f + 1) :
    (initiateViewChange cfg o s r).currentView = s.currentView + 1
    ∧ (initiateViewChange cfg o s r).viewChangeInProgress = false
    ∧ (initiateViewChange cfg o s r).viewChanges = s.viewChanges ++
        [⟨s.clock + cfg.viewChangeTimeout, s.currentView, s.currentView + 1, r,
          s.clock + cfg.viewChangeTimeout - s.clock,
          (vcLoop o s.validators s.tick).count * s.validators.length,
          ((vcLoop o s.validators s.tick).vs[(s.currentView + 1) %
            s.validators.length]?).map PBFTValidator.address⟩] := by
  have hlen : (vcLoop o s.validators s.tick).vs.length = s.validators.length :=
    (loops_length o 0 0 0 0 s.validators 0 s.tick).2.2
  rw [initiateViewChange_eq cfg o s r h, hlen]
  exact ⟨rfl, rfl, rfl⟩

theorem claim8_witness :
    (initiateViewChange defaultConfig oracleTrue stC "r").currentView
        = stC.currentView + 1
    ∧ (initiateViewChange defaultConfig oracleTrue stC "r").viewChangeInProgress = false
    ∧ (initiateViewChange defaultConfig oracleTrue stC "r").viewChanges = stC.viewChanges
        ++ [⟨stC.clock + defaultConfig.viewChangeTimeout, stC.currentView,
          stC.currentView + 1, "r",
          stC.clock + defaultConfig.viewChangeTimeout - stC.clock,
          (vcLoop oracleTrue stC.validators stC.tick).count * stC.validators.length,
          ((vcLoop oracleTrue stC.validators stC.tick).vs[(stC.currentView + 1) %
            stC.validators.length]?).map PBFTValidator.address⟩] :=
  claim8_view_change_soft_fail defaultConfig oracleTrue stC "r" rfl (by decide)

/-- C9: one fault-model call yields `none` or the validator's configured
`byzantineType`, a non-Byzantine validator is never touched by it; over any
whole run every validator keeps its `isByzantine` flag and `byzantineType`,
and a non-Byzantine validator's `failures` counter never moves. -/
theorem claim9_fixed_fault_kind :
    (∀ (o : Nat → Bool) (v : PBFTValidator) (t : Nat),
      ((exhibitsByzantineFailure o v t).1 = none ∨
        (exhibitsByzantineFailure o v t).1 = v.byzantineType)
      ∧ (v.isByzantine = false → exhibitsByzantineFailure o v t = (none, v, t)))
    ∧ (∀ (cfg : Config) (o : Nat → Bool) (n : Nat) (s : PBFTState),
        (runRounds cfg o n s).validators.map byzObs = s.validators.map byzObs)
    ∧ (∀ (cfg : Config) (o : Nat → Bool) (n : Nat) (s : PBFTState) (i : Nat)
        (v v' : PBFTValidator), s.validators[i]? = some v →
        (runRounds cfg o n s).validators[i]? = some v' →
        v'.isByzantine = v.isByzantine ∧ v'.byzantineType = v.byzantineType
        ∧ (v.isByzantine = false → v'.failures = v.failures)) := by
  refine ⟨fun o v t => ⟨exhibits_result o v t, exhibits_nonByz o v t⟩,
         fun cfg o n s => (runRounds_inv cfg o n s).1, ?_⟩
  intro cfg o n s i v v' hv hv'
  have hmap := (runRounds_inv cfg o n s).1
  have hget := get?_map_eq byzObs s.validators (runRounds cfg o n s).validators hmap i
  rw [hv, hv'] at hget
  have hobs : byzObs v' = byzObs v := by
    simpa using hget
  have h1 : v'.isByzantine = v.isByzantine := congrArg Prod.fst hobs
  have h2 : v'.byzantineType = v.byzantineType := congrArg (fun x => x.2.1) hobs
  have h3 := congrArg (fun x => x.2.2) hobs
  refine ⟨h1, h2, fun hfalse => ?_⟩
  simp only [byzObs] at h3
  rw [h1, hfalse] at h3
  simpa using h3

theorem claim9_witness :
    (⟨10, 0, false, none, 0, 0, 1, 0, 1, 0, 0, 0⟩ : PBFTValidator).isByzantine
        = (mkValidator 10 0 false none).isByzantine
    ∧ (⟨10, 0, false, none, 0, 0, 1, 0, 1, 0, 0, 0⟩ : PBFTValidator).byzantineType
        = (mkValidator 10 0 false none).byzantineType
    ∧ ((mkValidator 10 0 false none).isByzantine = false →
        (⟨10, 0, false, none, 0, 0, 1, 0, 1, 0, 0, 0⟩ : PBFTValidator).failures
          = (mkValidator 10 0 false none).failures) :=
  claim9_fixed_fault_kind.2.2 defaultConfig oracleFalse 1 stA 0
    (mkValidator 10 0 false none) ⟨10, 0, false, none, 0, 0, 1, 0, 1, 0, 0, 0⟩
    (by decide) (by decide)

/-- C10: every failure result of a round started with no view change in
flight carries the height the round ran at and the *post-view-change*
(incremented) view, and exactly one `ViewChangeRecord` is appended before the
result is built — the failure result being the `RoundResult.failed`
constructor `{blockHeight, view, error, timestamp}`, without the primary,
phase-timing or total-time fields of a success result. -/
theorem claim10_failure_view_post_change (cfg : Config) (o : Nat → Bool)
    (s : PBFTState) (h : s.viewChangeInProgress = false) :
    ∀ bh vw err ts, (runConsensus cfg o s).1 = RoundResult.failed bh vw err ts →
      bh = s.blockHeight + 1 ∧ vw = s.currentView + 1
      ∧ (runConsensus cfg o s).2.viewChanges.length = s.viewChanges.length + 1 :=
  runConsensus_failed cfg o s h

theorem claim10_witness :
    (1 : Nat) = stC.blockHeight + 1 ∧ (1 : Nat) = stC.currentView + 1
    ∧ (runConsensus defaultConfig oracleTrue stC).2.viewChanges.length
      = stC.viewChanges.length + 1 :=
  claim10_failure_view_post_change defaultConfig oracleTrue stC rfl 1 1
    "Insufficient prepare messages: 0/3" 2500 (by decide)
